import Mathlib

/-!
Verification development for the timlg-protocol Solana program
(`programs/timlg_protocol/src`).  The Rust instruction handlers are embedded
shallowly: machine `u64` arithmetic becomes `Nat` with explicit wrapping,
checked and saturating operations; fallible instructions become
`Except Err Chain` functions over an explicit ledger state; the atomic
transaction substrate is modelled by the `Except` semantics (an error leaves
the pre-state untouched).  Account addresses derived from seeds
(`round_id`, `user`, `nonce`) are modelled as keyed lookups, following the
protocol's own design note that seed-derived identity is an
insert-if-absent map keyed by that triple.
-/

set_option maxRecDepth 20000
set_option maxHeartbeats 1000000

namespace Timlg

/-- Decidable equality of `Except` results (used by concrete witness
evaluations). -/
instance {ε α : Type} [DecidableEq ε] [DecidableEq α] :
    DecidableEq (Except ε α) := fun a b =>
  match a, b with
  | .ok x, .ok y =>
      if h : x = y then .isTrue (by rw [h]) else .isFalse (by simp [h])
  | .error x, .error y =>
      if h : x = y then .isTrue (by rw [h]) else .isFalse (by simp [h])
  | .ok _, .error _ => .isFalse (by simp)
  | .error _, .ok _ => .isFalse (by simp)

/-! ## u64 arithmetic model -/

/-- Modulus of the 64-bit unsigned integers used throughout the program. -/
def U64LIMIT : Nat := 2 ^ 64

/-- Unchecked Rust `+` on `u64`: wraps modulo `2^64` (release semantics of the
machine add used by `create_round`'s deadline validation). -/
def wrapAdd64 (a b : Nat) : Nat := (a + b) % U64LIMIT

/-- Rust `u64::checked_add`. -/
def checkedAdd (a b : Nat) : Option Nat :=
  if a + b < U64LIMIT then some (a + b) else none

/-- Rust `u64::checked_mul`. -/
def checkedMul (a b : Nat) : Option Nat :=
  if a * b < U64LIMIT then some (a * b) else none

/-- Rust `u64::checked_sub`. -/
def checkedSub (a b : Nat) : Option Nat :=
  if b ≤ a then some (a - b) else none

/-- Rust `u64::checked_div`. -/
def checkedDiv (a b : Nat) : Option Nat :=
  if b = 0 then none else some (a / b)

/-- Rust `u64::saturating_add`. -/
def satAdd64 (a b : Nat) : Nat := min (a + b) (U64LIMIT - 1)

/-- Rust `u64::saturating_sub` (on `Nat` ordinary subtraction already
saturates at zero). -/
def satSub (a b : Nat) : Nat := a - b

/-! ## Protocol constants (`constants.rs`, `utils.rs`) -/

/-- Minimum number of slots between commit deadline and reveal deadline. -/
def MIN_REVEAL_WINDOW_SLOTS : Nat := 60

/-- Timeout in slots after the reveal deadline before refunds open. -/
def REFUND_TIMEOUT_SLOTS : Nat := 150

/-- Maximum number of entries in a batch commit/reveal. -/
def MAX_BATCH : Nat := 16

/-- Liveness buffer used inline by `set_pulse_signed`
(`let min_reveal_window = 50`). -/
def SET_PULSE_MIN_REVEAL_WINDOW : Nat := 50

/-- Program id of the deployed program, modelled as an abstract 32-byte
identity; its concrete value never matters, only its fixedness. -/
def PROGRAM_ID : Nat := 71

/-! ## Error taxonomy (`errors.rs`) -/

/-- Program errors (`TimlgError` in `errors.rs`).  The variant
`RoundTokensAlreadySettled` is referenced by `settle_round_tokens` in
`lifecycle.rs`; it is included here as used by that instruction code. -/
inductive TimlgError where
  | Unauthorized
  | Paused
  | InvalidDeadlines
  | CommitClosed
  | RevealClosed
  | PulseNotSet
  | PulseAlreadySet
  | AlreadyFinalized
  | NotFinalized
  | CannotFinalizeYet
  | AlreadyRevealed
  | CommitmentMismatch
  | InvalidGuess
  | TooManyEntries
  | TicketPdaMismatch
  | TicketAlreadyExists
  | TicketNotOwnedByProgram
  | VaultPdaMismatch
  | InsufficientVaultFunds
  | MissingOrInvalidEd25519Ix
  | Ed25519PubkeyMismatch
  | Ed25519MessageMismatch
  | OracleNotSet
  | BitIndexMismatch
  | AccountBorrowFailed
  | RoundFinalized
  | CommitAfterPulseSet
  | SweepTooEarly
  | AlreadySwept
  | ClaimAfterSweep
  | InvalidStakeAmount
  | InvalidWindow
  | MathOverflow
  | TicketNotRevealed
  | NotWinner
  | AlreadyClaimed
  | StakeNotPaid
  | SignedBatchMixedUsers
  | RoundNotSettled
  | SettleTooEarly
  | InvalidBps
  | RefundTooEarly
  | VaultNotEmpty
  | RevealWindowTooShort
  | NotSwept
  | RoundTokensNotSettled
  | TicketAlreadyProcessed
  | TicketNotProcessed
  | WinnerMustClaimFirst
  | PulseTooLate
  | RoundTokensAlreadySettled
deriving DecidableEq

/-- Failure of an instruction: either a program error from `errors.rs` or a
failure of an external collaborator (SPL token program, system program,
Anchor account (de)serialization, Rust panic). -/
inductive Err where
  | prog (e : TimlgError)
  | tokenInsufficientFunds
  | accountAlreadyInUse
  | accountNotFound
  | malformedArgs
  | panicked
deriving DecidableEq

/-! ## Byte encodings and domain tags (`utils.rs`) -/

/-- Little-endian fixed-width byte encoding (`to_le_bytes`). -/
def leBytes (width n : Nat) : List Nat :=
  (List.range width).map (fun i => n / 256 ^ i % 256)

/-- `u64::to_le_bytes`. -/
def u64le (n : Nat) : List Nat := leBytes 8 n

/-- The 32 bytes of a public key (`Pubkey::as_ref`); keys are modelled as
naturals below `2^256`. -/
def pkBytes (pk : Nat) : List Nat := leBytes 32 pk

/-- ASCII bytes of the domain tag `"bitindex"`. -/
def TAG_BITINDEX : List Nat := [98, 105, 116, 105, 110, 100, 101, 120]

/-- ASCII bytes of the domain tag `"commit"`. -/
def TAG_COMMIT : List Nat := [99, 111, 109, 109, 105, 116]

/-- ASCII bytes of `"timlg-protocol:commit_v1"`. -/
def TAG_COMMIT_MSG : List Nat :=
  [116, 105, 109, 108, 103, 45, 112, 114, 111, 116, 111, 99, 111, 108, 58,
   99, 111, 109, 109, 105, 116, 95, 118, 49]

/-- ASCII bytes of `"timlg-protocol:reveal_v1"`. -/
def TAG_REVEAL_MSG : List Nat :=
  [116, 105, 109, 108, 103, 45, 112, 114, 111, 116, 111, 99, 111, 108, 58,
   114, 101, 118, 101, 97, 108, 95, 118, 49]

/-- ASCII bytes of `"timlg-protocol:pulse_v1"`. -/
def TAG_PULSE_MSG : List Nat :=
  [116, 105, 109, 108, 103, 45, 112, 114, 111, 116, 111, 99, 111, 108, 58,
   112, 117, 108, 115, 101, 95, 118, 49]

/-- Model of the external SHA-256 collaborator
(`solana_sha256_hasher::hashv`, an external crate, not code of this
repository): a fixed deterministic 32-byte digest of the concatenated
chunks.  Every property proved in this file depends only on the function
being a deterministic pure function with a 32-byte output, never on the
SHA-256 compression function itself. -/
def hashv (chunks : List (List Nat)) : List Nat :=
  let bytes := chunks.flatten
  (List.range 32).map
    (fun i => bytes.foldl (fun a b => (a * 131 + b + 7) % 65521) (i + 1) % 256)

/-! ## Commitment / reveal codec (`utils.rs`) -/

/-- `derive_bit_index` from `utils.rs`:
`u16::from_le_bytes([h[0], h[1]]) % 512` over
`hashv(["bitindex", round_id LE, user, nonce LE])`. -/
def derive_bit_index (round_id user nonce : Nat) : Nat :=
  let h := hashv [TAG_BITINDEX, u64le round_id, pkBytes user, u64le nonce]
  (h.getD 0 0 + 256 * h.getD 1 0) % 512

/-- `commit_hash` from `utils.rs`. -/
def commit_hash (round_id user nonce guess : Nat) (salt : List Nat) : List Nat :=
  hashv [TAG_COMMIT, u64le round_id, pkBytes user, u64le nonce, [guess], salt]

/-- `get_pulse_bit` from `utils.rs`: `(pulse[idx / 8] >> (idx % 8)) & 1`.
The Rust index expression panics when `idx / 8` is out of bounds; the panic
branch is modelled by `none`. -/
def get_pulse_bit (pulse : List Nat) (bit_index : Nat) : Option Nat :=
  if h : bit_index / 8 < pulse.length then
    some ((pulse.get ⟨bit_index / 8, h⟩ >>> (bit_index % 8)) &&& 1)
  else none

/-- `expected_commit_msg` from `utils.rs`. -/
def expected_commit_msg (program_id round_id user nonce : Nat)
    (commitment : List Nat) : List Nat :=
  TAG_COMMIT_MSG ++ pkBytes program_id ++ u64le round_id ++ pkBytes user ++
    u64le nonce ++ commitment

/-- `expected_reveal_msg` from `utils.rs`. -/
def expected_reveal_msg (program_id round_id user nonce guess : Nat)
    (salt : List Nat) : List Nat :=
  TAG_REVEAL_MSG ++ pkBytes program_id ++ u64le round_id ++ pkBytes user ++
    u64le nonce ++ [guess] ++ salt

/-- `expected_pulse_msg` from `utils.rs`. -/
def expected_pulse_msg (program_id round_id pulse_index_target : Nat)
    (pulse : List Nat) : List Nat :=
  TAG_PULSE_MSG ++ pkBytes program_id ++ u64le round_id ++
    u64le pulse_index_target ++ pulse

/-! ## Account state (`state.rs`, with the settlement fields used by the
instruction code in `lifecycle.rs` / `commit.rs` / `admin.rs` / `reward.rs`:
`Round.settled_count`, `Round.token_settled`, `Round.token_settled_slot`,
`Ticket.processed`) -/

/-- `Config` account (fields consumed by the embedded instructions).
`oracle_pubkey = 0` models `Pubkey::default()`. -/
structure Config where
  admin : Nat
  stake_amount : Nat
  commit_window_slots : Nat
  reveal_window_slots : Nat
  claim_grace_slots : Nat
  oracle_pubkey : Nat
  paused : Bool
  timlg_mint : Nat
deriving DecidableEq

/-- `Tokenomics` account (field consumed by `claim_reward`). -/
structure Tokenomics where
  reward_fee_bps : Nat
deriving DecidableEq

/-- `Round` account. -/
structure Round where
  round_id : Nat
  state : Nat
  pulse_index_target : Nat
  commit_deadline_slot : Nat
  reveal_deadline_slot : Nat
  created_slot : Nat
  pulse_set : Bool
  pulse : List Nat
  pulse_set_slot : Nat
  finalized : Bool
  finalized_slot : Nat
  swept : Bool
  swept_slot : Nat
  committed_count : Nat
  revealed_count : Nat
  win_count : Nat
  settled_count : Nat
  token_settled : Bool
  token_settled_slot : Nat
deriving DecidableEq

/-- `Ticket` account. -/
structure Ticket where
  round_id : Nat
  user : Nat
  nonce : Nat
  commitment : List Nat
  stake_paid : Bool
  stake_slashed : Bool
  processed : Bool
  revealed : Bool
  guess : Nat
  win : Bool
  bit_index : Nat
  claimed : Bool
  claimed_slot : Nat
  created_slot : Nat
  revealed_slot : Nat
deriving DecidableEq

/-! ## Shared reveal logic (`utils.rs::reveal_core`) -/

/-- `reveal_core` from `utils.rs`: recompute the commitment, re-derive the
bit index, read the pulse bit, mark the ticket revealed with its win flag. -/
def reveal_core (round : Round) (ticket : Ticket)
    (user_pk round_id nonce guess : Nat) (salt : List Nat)
    (current_slot : Nat) : Except Err Ticket :=
  if commit_hash round_id user_pk nonce guess salt ≠ ticket.commitment then
    .error (.prog .CommitmentMismatch)
  else if ticket.bit_index ≠ derive_bit_index round_id user_pk nonce then
    .error (.prog .BitIndexMismatch)
  else
    match get_pulse_bit round.pulse ticket.bit_index with
    | none => .error .panicked
    | some bit =>
        .ok { ticket with
              revealed := true
              guess := guess
              win := bit == guess
              revealed_slot := current_slot }

/-! ## Ledger state

All accounts touched by one round's lifecycle, including the per-round SPL
token vault balance, the users' token accounts, the escrow sub-vaults, the
reward fee pool and the treasuries.  Token / lamport CPIs append to a ghost
`log` recording each performed external token operation, so that theorems
can speak about which CPIs were issued (e.g. "a zero mint is skipped"). -/

/-- One external value movement performed via CPI. -/
inductive TokenEvent where
  | stakeIn (user amt : Nat)
  | escrowStakeIn (user amt : Nat)
  | stakeReturn (user amt : Nat)
  | burn (amt : Nat)
  | mintUser (user amt : Nat)
  | mintFeePool (amt : Nat)
  | sweepTokens (amt : Nat)
  | sweepLamports (amt : Nat)
deriving DecidableEq

/-- Balance lookup in an association list of `(pubkey, amount)` pairs;
an absent account reads as zero. -/
def lookupBal (m : List (Nat × Nat)) (k : Nat) : Nat :=
  match m with
  | [] => 0
  | (a, v) :: rest => if a = k then v else lookupBal rest k

/-- Overwrite (or insert) a balance. -/
def setBal (m : List (Nat × Nat)) (k v : Nat) : List (Nat × Nat) :=
  match m with
  | [] => [(k, v)]
  | (a, w) :: rest =>
      if a = k then (k, v) :: rest else (a, w) :: setBal rest k v

/-- Credit an account. -/
def creditBal (m : List (Nat × Nat)) (k amt : Nat) : List (Nat × Nat) :=
  setBal m k (lookupBal m k + amt)

/-- Debit an account (callers check sufficiency first, as the token program
does). -/
def debitBal (m : List (Nat × Nat)) (k amt : Nat) : List (Nat × Nat) :=
  setBal m k (lookupBal m k - amt)

/-- Does the ticket occupy the seed-derived address keyed by
`(user, nonce)`? -/
def keyMatch (t : Ticket) (user nonce : Nat) : Bool :=
  t.user == user && t.nonce == nonce

theorem keyMatch_iff (t : Ticket) (user nonce : Nat) :
    keyMatch t user nonce = true ↔ (t.user = user ∧ t.nonce = nonce) := by
  simp [keyMatch]

/-- Lookup of the ticket account at the seed-derived address
`(round_id, user, nonce)`; `none` models an address not occupied by a
ticket account. -/
def findTicket (ts : List Ticket) (user nonce : Nat) : Option Ticket :=
  match ts with
  | [] => none
  | t :: rest =>
      if keyMatch t user nonce then some t else findTicket rest user nonce

/-- Replace the ticket stored at `(user, nonce)` (used only with a new
ticket carrying the same key). -/
def setTicket (ts : List Ticket) (user nonce : Nat) (tNew : Ticket) :
    List Ticket :=
  match ts with
  | [] => []
  | t :: rest =>
      if keyMatch t user nonce then tNew :: rest
      else t :: setTicket rest user nonce tNew

/-- Close the ticket account at `(user, nonce)` (Anchor `close = user`
constraint: account removed from the ledger, rent refunded). -/
def removeTicket (ts : List Ticket) (user nonce : Nat) : List Ticket :=
  match ts with
  | [] => []
  | t :: rest =>
      if keyMatch t user nonce then rest else t :: removeTicket rest user nonce

/-- The full per-round ledger state. -/
structure Chain where
  config : Config
  tokenomics : Tokenomics
  round : Round
  tickets : List Ticket
  vaultTok : Nat
  userTok : List (Nat × Nat)
  escrowTok : List (Nat × Nat)
  feePoolTok : Nat
  treasuryTok : Nat
  vaultSol : Nat
  treasurySol : Nat
  log : List TokenEvent
deriving DecidableEq

/-! ## Batch payload types (`utils.rs`) -/

/-- `CommitEntry`. -/
structure CommitEntry where
  nonce : Nat
  commitment : List Nat
deriving DecidableEq

/-- `RevealEntry`. -/
structure RevealEntry where
  nonce : Nat
  guess : Nat
  salt : List Nat
deriving DecidableEq

/-- `CommitSignedEntry`. -/
structure CommitSignedEntry where
  user : Nat
  nonce : Nat
  commitment : List Nat
deriving DecidableEq

/-- `RevealSignedEntry`. -/
structure RevealSignedEntry where
  user : Nat
  nonce : Nat
  guess : Nat
  salt : List Nat
deriving DecidableEq

/-! ## Round creation (`admin.rs::create_round` / `create_round_auto`) -/

/-- The `Round` literal written by `create_round` (and by
`create_round_auto`, which initializes the same fields). -/
def initRound (round_id pulse_index_target commit_deadline_slot
    reveal_deadline_slot current_slot : Nat) : Round :=
  { round_id := round_id
    state := 0
    pulse_index_target := pulse_index_target
    commit_deadline_slot := commit_deadline_slot
    reveal_deadline_slot := reveal_deadline_slot
    created_slot := current_slot
    pulse_set := false
    pulse := List.replicate 64 0
    pulse_set_slot := 0
    finalized := false
    finalized_slot := 0
    swept := false
    swept_slot := 0
    committed_count := 0
    revealed_count := 0
    win_count := 0
    settled_count := 0
    token_settled := false
    token_settled_slot := 0 }

/-- `create_round` from `admin.rs`.  The deadline-gap validation embeds the
source's unchecked `u64` addition
`commit_deadline_slot + MIN_REVEAL_WINDOW_SLOTS` as a wrapping add. -/
def create_round (cfg : Config) (admin current_slot round_id
    pulse_index_target commit_deadline_slot reveal_deadline_slot : Nat) :
    Except Err Round :=
  if cfg.paused then .error (.prog .Paused)
  else if cfg.admin ≠ admin then .error (.prog .Unauthorized)
  else if ¬ commit_deadline_slot < reveal_deadline_slot then
    .error (.prog .InvalidDeadlines)
  else if ¬ wrapAdd64 commit_deadline_slot MIN_REVEAL_WINDOW_SLOTS ≤
      reveal_deadline_slot then
    .error (.prog .RevealWindowTooShort)
  else
    .ok (initRound round_id pulse_index_target commit_deadline_slot
          reveal_deadline_slot current_slot)

/-! ## Commit intake (`commit.rs`) -/

/-- The `Ticket` value written by every commit path (`commit_ticket`,
`commit_batch`, `commit_batch_signed` all store the same field values,
including `bit_index = derive_bit_index(round_id, user, nonce)`). -/
def mkTicket (round_id user nonce : Nat) (commitment : List Nat)
    (current_slot : Nat) : Ticket :=
  { round_id := round_id
    user := user
    nonce := nonce
    commitment := commitment
    stake_paid := true
    stake_slashed := false
    processed := false
    revealed := false
    guess := 0
    win := false
    bit_index := derive_bit_index round_id user nonce
    claimed := false
    claimed_slot := 0
    created_slot := current_slot
    revealed_slot := 0 }

/-- `commit_ticket` from `commit.rs`.  The Anchor `init` constraint on the
ticket PDA runs before the body: an occupied address aborts first. -/
def commit_ticket (σ : Chain) (current_slot round_id nonce user : Nat)
    (commitment : List Nat) : Except Err Chain :=
  if (findTicket σ.tickets user nonce).isSome then .error .accountAlreadyInUse
  else if σ.config.paused then .error (.prog .Paused)
  else if σ.round.finalized then .error (.prog .RoundFinalized)
  else if σ.round.pulse_set then .error (.prog .CommitAfterPulseSet)
  else if ¬ current_slot ≤ σ.round.commit_deadline_slot then
    .error (.prog .CommitClosed)
  else if lookupBal σ.userTok user < σ.config.stake_amount then
    .error .tokenInsufficientFunds
  else
    match checkedAdd σ.round.committed_count 1 with
    | none => .error (.prog .MathOverflow)
    | some cc =>
        .ok { σ with
              round := { σ.round with committed_count := cc }
              tickets := mkTicket round_id user nonce commitment current_slot
                :: σ.tickets
              userTok := debitBal σ.userTok user σ.config.stake_amount
              vaultTok := σ.vaultTok + σ.config.stake_amount
              log := σ.log ++ [TokenEvent.stakeIn user σ.config.stake_amount] }

/-- The per-entry creation loop of `commit_batch` (also reused by
`commit_batch_signed`, whose creation loop performs the identical
occupied-check and ticket write): each entry's seed-derived address must be
unoccupied, otherwise the batch aborts with `TicketAlreadyExists`. -/
def commitBatchLoop (round_id user current_slot : Nat)
    (entries : List CommitEntry) (tickets : List Ticket) :
    Except Err (List Ticket) :=
  match entries with
  | [] => .ok tickets
  | e :: rest =>
      if (findTicket tickets user e.nonce).isSome then
        .error (.prog .TicketAlreadyExists)
      else
        commitBatchLoop round_id user current_slot rest
          (mkTicket round_id user e.nonce e.commitment current_slot :: tickets)

/-- `commit_batch` from `commit.rs` (directly signed batch): the stake for
the whole batch is transferred before the per-entry creation loop runs. -/
def commit_batch (σ : Chain) (current_slot round_id user : Nat)
    (entries : List CommitEntry) : Except Err Chain :=
  if σ.config.paused then .error (.prog .Paused)
  else if ¬ entries.length ≤ MAX_BATCH then .error (.prog .TooManyEntries)
  else if σ.round.finalized then .error (.prog .RoundFinalized)
  else if σ.round.pulse_set then .error (.prog .CommitAfterPulseSet)
  else if ¬ current_slot ≤ σ.round.commit_deadline_slot then
    .error (.prog .CommitClosed)
  else
    match checkedMul σ.config.stake_amount entries.length with
    | none => .error (.prog .MathOverflow)
    | some total =>
        if lookupBal σ.userTok user < total then .error .tokenInsufficientFunds
        else
          match commitBatchLoop round_id user current_slot entries σ.tickets with
          | .error e => .error e
          | .ok ts =>
              match checkedAdd σ.round.committed_count entries.length with
              | none => .error (.prog .MathOverflow)
              | some cc =>
                  .ok { σ with
                        round := { σ.round with committed_count := cc }
                        tickets := ts
                        userTok := debitBal σ.userTok user total
                        vaultTok := σ.vaultTok + total
                        log := σ.log ++ [TokenEvent.stakeIn user total] }

/-- The per-entry ed25519 attestation check of `commit_batch_signed`:
each attached attestation must carry the entry's user as signer and the
canonical commit message. -/
def checkCommitAttests (round_id : Nat) (entries : List CommitSignedEntry)
    (attests : List (Nat × List Nat)) : Except Err Unit :=
  match entries, attests with
  | [], _ => .ok ()
  | _ :: _, [] => .error (.prog .MissingOrInvalidEd25519Ix)
  | e :: rest, a :: arest =>
      if a.1 ≠ e.user then .error (.prog .Ed25519PubkeyMismatch)
      else if a.2 ≠ expected_commit_msg PROGRAM_ID round_id e.user e.nonce
          e.commitment then
        .error (.prog .Ed25519MessageMismatch)
      else checkCommitAttests round_id rest arest

/-- The replay precheck of `commit_batch_signed`: every entry's target
ticket address is checked against the pre-state ledger, before any value
moves. -/
def replayPrecheck (tickets : List Ticket) (user : Nat)
    (entries : List CommitSignedEntry) : Except Err Unit :=
  match entries with
  | [] => .ok ()
  | e :: rest =>
      if (findTicket tickets user e.nonce).isSome then
        .error (.prog .TicketAlreadyExists)
      else replayPrecheck tickets user rest

/-- `commit_batch_signed` from `commit.rs` (pre-authorized batch): mixed
users rejected, one self-contained attestation per entry, replay precheck
over every entry, then the stake total is debited from the user's escrow
sub-vault and the tickets are created. -/
def commit_batch_signed (σ : Chain) (current_slot round_id _payer user : Nat)
    (entries : List CommitSignedEntry) (attests : List (Nat × List Nat)) :
    Except Err Chain :=
  if σ.config.paused then .error (.prog .Paused)
  else if ¬ entries.length ≤ MAX_BATCH then .error (.prog .TooManyEntries)
  else if σ.round.finalized then .error (.prog .RoundFinalized)
  else if σ.round.pulse_set then .error (.prog .CommitAfterPulseSet)
  else if ¬ current_slot ≤ σ.round.commit_deadline_slot then
    .error (.prog .CommitClosed)
  else if ¬ entries.all (fun e => e.user == user) then
    .error (.prog .SignedBatchMixedUsers)
  else if attests.length < entries.length then
    .error (.prog .MissingOrInvalidEd25519Ix)
  else
    match checkCommitAttests round_id entries attests with
    | .error e => .error e
    | .ok _ =>
        match replayPrecheck σ.tickets user entries with
        | .error e => .error e
        | .ok _ =>
            match checkedMul σ.config.stake_amount entries.length with
            | none => .error (.prog .MathOverflow)
            | some total =>
                if lookupBal σ.escrowTok user < total then
                  .error .tokenInsufficientFunds
                else
                  match commitBatchLoop round_id user current_slot
                      (entries.map (fun e => CommitEntry.mk e.nonce e.commitment))
                      σ.tickets with
                  | .error e => .error e
                  | .ok ts =>
                      match checkedAdd σ.round.committed_count entries.length with
                      | none => .error (.prog .MathOverflow)
                      | some cc =>
                          .ok { σ with
                                round := { σ.round with committed_count := cc }
                                tickets := ts
                                escrowTok := debitBal σ.escrowTok user total
                                vaultTok := σ.vaultTok + total
                                log := σ.log ++
                                  [TokenEvent.escrowStakeIn user total] }

/-! ## Reveal engine (`reveal.rs`) -/

/-- `reveal_ticket` from `reveal.rs`: the Anchor context resolves the
ticket PDA (seed-derived from `(round_id, user, nonce)`) before the body
runs, then the body gates on pause / guess / phase / window / `!revealed`,
calls `reveal_core`, and bumps `revealed_count` (and `win_count` on a win)
via checked adds. -/
def reveal_ticket_body (σ : Chain) (current_slot round_id nonce user guess : Nat)
    (salt : List Nat) (t : Ticket) : Except Err Chain :=
  if σ.config.paused then .error (.prog .Paused)
  else if ¬ guess ≤ 1 then .error (.prog .InvalidGuess)
  else if σ.round.finalized then .error (.prog .RoundFinalized)
  else if ¬ current_slot ≤ σ.round.reveal_deadline_slot then
    .error (.prog .RevealClosed)
  else if ¬ σ.round.pulse_set then .error (.prog .PulseNotSet)
  else if t.revealed then .error (.prog .AlreadyRevealed)
  else
    match reveal_core σ.round t user round_id nonce guess salt
        current_slot with
    | .error e => .error e
    | .ok t2 =>
        match checkedAdd σ.round.revealed_count 1 with
        | none => .error (.prog .MathOverflow)
        | some rc =>
            if t2.win then
              match checkedAdd σ.round.win_count 1 with
              | none => .error (.prog .MathOverflow)
              | some wc =>
                  .ok { σ with
                        round := { σ.round with
                                   revealed_count := rc, win_count := wc }
                        tickets := setTicket σ.tickets user nonce t2 }
            else
              .ok { σ with
                    round := { σ.round with revealed_count := rc }
                    tickets := setTicket σ.tickets user nonce t2 }

/-- `reveal_ticket` from `reveal.rs`: the Anchor context resolves the
seed-derived ticket PDA before the body runs. -/
def reveal_ticket (σ : Chain) (current_slot round_id nonce user guess : Nat)
    (salt : List Nat) : Except Err Chain :=
  match findTicket σ.tickets user nonce with
  | none => .error .accountNotFound
  | some t => reveal_ticket_body σ current_slot round_id nonce user guess salt t

/-- Accumulator of the reveal batch loops: the round (whose reveal counters
the loop bumps) and the ticket accounts. -/
structure RevealAcc where
  round : Round
  tickets : List Ticket
deriving DecidableEq

/-- The per-entry loop of `reveal_batch`: PDA-check, deserialize,
`!revealed`, `reveal_core`, counters, write back. -/
def revealBatchLoop (round_id user current_slot : Nat)
    (entries : List RevealEntry) (acc : RevealAcc) : Except Err RevealAcc :=
  match entries with
  | [] => .ok acc
  | e :: rest =>
      if ¬ e.guess ≤ 1 then .error (.prog .InvalidGuess)
      else
        match findTicket acc.tickets user e.nonce with
        | none => .error (.prog .TicketNotOwnedByProgram)
        | some t =>
            if t.revealed then .error (.prog .AlreadyRevealed)
            else
              match reveal_core acc.round t user round_id e.nonce e.guess
                  e.salt current_slot with
              | .error err => .error err
              | .ok t2 =>
                  match checkedAdd acc.round.revealed_count 1 with
                  | none => .error (.prog .MathOverflow)
                  | some rc =>
                      if t2.win then
                        match checkedAdd acc.round.win_count 1 with
                        | none => .error (.prog .MathOverflow)
                        | some wc =>
                            revealBatchLoop round_id user current_slot rest
                              { round := { acc.round with
                                           revealed_count := rc
                                           win_count := wc }
                                tickets := setTicket acc.tickets user e.nonce t2 }
                      else
                        revealBatchLoop round_id user current_slot rest
                          { round := { acc.round with revealed_count := rc }
                            tickets := setTicket acc.tickets user e.nonce t2 }

/-- `reveal_batch` from `reveal.rs`. -/
def reveal_batch (σ : Chain) (current_slot round_id user : Nat)
    (entries : List RevealEntry) : Except Err Chain :=
  if σ.config.paused then .error (.prog .Paused)
  else if ¬ entries.length ≤ MAX_BATCH then .error (.prog .TooManyEntries)
  else if σ.round.finalized then .error (.prog .RoundFinalized)
  else if ¬ σ.round.pulse_set then .error (.prog .PulseNotSet)
  else if ¬ current_slot ≤ σ.round.reveal_deadline_slot then
    .error (.prog .RevealClosed)
  else
    match revealBatchLoop round_id user current_slot entries
        { round := σ.round, tickets := σ.tickets } with
    | .error e => .error e
    | .ok acc => .ok { σ with round := acc.round, tickets := acc.tickets }

/-- The per-entry loop of `reveal_batch_signed`: guess gate, attestation
check against the canonical reveal message, PDA / ownership / identity
checks, `!revealed`, `reveal_core`, counters, write back. -/
def revealBatchSignedLoop (round_id current_slot : Nat)
    (entries : List RevealSignedEntry) (attests : List (Nat × List Nat))
    (acc : RevealAcc) : Except Err RevealAcc :=
  match entries, attests with
  | [], _ => .ok acc
  | _ :: _, [] => .error (.prog .MissingOrInvalidEd25519Ix)
  | e :: rest, a :: arest =>
      if ¬ e.guess ≤ 1 then .error (.prog .InvalidGuess)
      else if a.1 ≠ e.user then .error (.prog .Ed25519PubkeyMismatch)
      else if a.2 ≠ expected_reveal_msg PROGRAM_ID round_id e.user e.nonce
          e.guess e.salt then
        .error (.prog .Ed25519MessageMismatch)
      else
        match findTicket acc.tickets e.user e.nonce with
        | none => .error (.prog .TicketPdaMismatch)
        | some t =>
            if t.round_id ≠ round_id then .error (.prog .TicketPdaMismatch)
            else if t.revealed then .error (.prog .AlreadyRevealed)
            else
              match reveal_core acc.round t e.user round_id e.nonce e.guess
                  e.salt current_slot with
              | .error err => .error err
              | .ok t2 =>
                  match checkedAdd acc.round.revealed_count 1 with
                  | none => .error (.prog .MathOverflow)
                  | some rc =>
                      if t2.win then
                        match checkedAdd acc.round.win_count 1 with
                        | none => .error (.prog .MathOverflow)
                        | some wc =>
                            revealBatchSignedLoop round_id current_slot rest
                              arest
                              { round := { acc.round with
                                           revealed_count := rc
                                           win_count := wc }
                                tickets := setTicket acc.tickets e.user e.nonce
                                  t2 }
                      else
                        revealBatchSignedLoop round_id current_slot rest arest
                          { round := { acc.round with revealed_count := rc }
                            tickets := setTicket acc.tickets e.user e.nonce t2 }

/-- `reveal_batch_signed` from `reveal.rs`. -/
def reveal_batch_signed (σ : Chain) (current_slot round_id : Nat)
    (entries : List RevealSignedEntry) (attests : List (Nat × List Nat)) :
    Except Err Chain :=
  if σ.config.paused then .error (.prog .Paused)
  else if ¬ entries.length ≤ MAX_BATCH then .error (.prog .TooManyEntries)
  else if σ.round.finalized then .error (.prog .RoundFinalized)
  else if σ.round.round_id ≠ round_id then .error (.prog .TicketPdaMismatch)
  else if ¬ current_slot ≤ σ.round.reveal_deadline_slot then
    .error (.prog .RevealClosed)
  else if ¬ σ.round.pulse_set then .error (.prog .PulseNotSet)
  else if !(match entries.head? with
            | none => true
            | some first => entries.all (fun e => e.user == first.user)) then
    .error (.prog .SignedBatchMixedUsers)
  else if attests.length < entries.length then
    .error (.prog .MissingOrInvalidEd25519Ix)
  else
    match revealBatchSignedLoop round_id current_slot entries attests
        { round := σ.round, tickets := σ.tickets } with
    | .error e => .error e
    | .ok acc => .ok { σ with round := acc.round, tickets := acc.tickets }

/-! ## Pulse authorization (`oracle.rs::set_pulse_signed`) -/

/-- `set_pulse_signed` from `oracle.rs`.  The `pulse` argument is a
`[u8; 64]`; a list of any other length cannot be deserialized from the
instruction data and is rejected by the runtime before the body runs
(`malformedArgs`).  The attached ed25519 attestation (already
offset-validated as self-contained by `parse_ed25519_ix_pubkey_and_msg`) is
modelled as an optional `(signer, message)` pair; `none` models a missing
or malformed verify instruction. -/
def set_pulse_signed (σ : Chain) (current_slot round_id : Nat)
    (pulse : List Nat) (attest : Option (Nat × List Nat)) :
    Except Err Chain :=
  if pulse.length ≠ 64 then .error .malformedArgs
  else if σ.config.paused then .error (.prog .Paused)
  else if σ.config.oracle_pubkey = 0 then .error (.prog .OracleNotSet)
  else if σ.round.round_id ≠ round_id then .error (.prog .TicketPdaMismatch)
  else if ¬ σ.round.commit_deadline_slot ≤ current_slot then
    .error (.prog .CommitClosed)
  else if σ.round.finalized then .error (.prog .RoundFinalized)
  else if ¬ current_slot <
      satSub σ.round.reveal_deadline_slot SET_PULSE_MIN_REVEAL_WINDOW then
    .error (.prog .PulseTooLate)
  else if σ.round.pulse_set then .error (.prog .PulseAlreadySet)
  else
    match attest with
    | none => .error (.prog .MissingOrInvalidEd25519Ix)
    | some (pk, msg) =>
        if pk ≠ σ.config.oracle_pubkey then
          .error (.prog .Ed25519PubkeyMismatch)
        else if msg ≠ expected_pulse_msg PROGRAM_ID round_id
            σ.round.pulse_index_target pulse then
          .error (.prog .Ed25519MessageMismatch)
        else
          .ok { σ with
                round := { σ.round with
                           pulse := pulse
                           pulse_set := true
                           pulse_set_slot := current_slot
                           state := 1 } }

/-! ## Lifecycle (`lifecycle.rs`) -/

/-- `finalize_round` from `lifecycle.rs`. -/
def finalize_round (σ : Chain) (current_slot round_id admin : Nat) :
    Except Err Chain :=
  if σ.config.paused then .error (.prog .Paused)
  else if σ.config.admin ≠ admin then .error (.prog .Unauthorized)
  else if σ.round.round_id ≠ round_id then .error (.prog .TicketPdaMismatch)
  else if σ.round.finalized then .error (.prog .AlreadyFinalized)
  else if ¬ σ.round.pulse_set then .error (.prog .PulseNotSet)
  else if ¬ σ.round.reveal_deadline_slot < current_slot then
    .error (.prog .CannotFinalizeYet)
  else
    .ok { σ with
          round := { σ.round with
                     finalized := true
                     finalized_slot := current_slot
                     state := 2 } }

/-- Accumulator of the settlement scan: the ticket accounts, the running
`settled_count` and the number of losers counted in this call. -/
structure SettleAcc where
  tickets : List Ticket
  settled : Nat
  losers : Nat
deriving DecidableEq

/-- The per-ticket settlement write: unrevealed-or-lost tickets get
`stake_slashed`, every scanned ticket is marked `processed`. -/
def processTicket (t : Ticket) : Ticket :=
  { t with
    stake_slashed := if !t.revealed || !t.win then true else t.stake_slashed
    processed := true }

/-- The per-account scan of `settle_round_tokens`: ownership check,
deserialize, round / stake checks, PDA sanity, skip already-processed
tickets, classify unrevealed-or-lost tickets as losers (marking
`stake_slashed`), mark `processed` and bump `settled_count` exactly once
per ticket. -/
def settleLoop (round_id : Nat) (keys : List (Nat × Nat)) (acc : SettleAcc) :
    Except Err SettleAcc :=
  match keys with
  | [] => .ok acc
  | (user, nonce) :: rest =>
      match findTicket acc.tickets user nonce with
      | none => .error (.prog .TicketNotOwnedByProgram)
      | some t =>
          if t.round_id ≠ round_id then .error (.prog .TicketPdaMismatch)
          else if ¬ t.stake_paid then .error (.prog .StakeNotPaid)
          else if t.processed then settleLoop round_id rest acc
          else
            match (if !t.revealed || !t.win then checkedAdd acc.losers 1
                   else some acc.losers) with
            | none => .error (.prog .MathOverflow)
            | some l2 =>
                match checkedAdd acc.settled 1 with
                | none => .error (.prog .MathOverflow)
                | some s2 =>
                    settleLoop round_id rest
                      { tickets := setTicket acc.tickets user nonce
                          (processTicket t)
                        settled := s2
                        losers := l2 }

/-- `settle_round_tokens` from `lifecycle.rs`: window gate, auto-finalize
(never without a pulse), `!token_settled` guard, the per-ticket scan, one
burn of `stake_amount * losers`, and the `token_settled` mark exactly when
`settled_count == committed_count`. -/
def settle_round_tokens (σ : Chain) (current_slot round_id : Nat)
    (keys : List (Nat × Nat)) : Except Err Chain :=
  if σ.config.paused then .error (.prog .Paused)
  else if σ.round.round_id ≠ round_id then .error (.prog .TicketPdaMismatch)
  else if ¬ σ.round.reveal_deadline_slot < current_slot then
    .error (.prog .SettleTooEarly)
  else
    match (if σ.round.finalized then some σ.round
           else if σ.round.pulse_set then
             some { σ.round with
                    finalized := true
                    finalized_slot := current_slot
                    state := 2 }
           else none) with
    | none => .error (.prog .PulseNotSet)
    | some round1 =>
        if round1.token_settled then
          .error (.prog .RoundTokensAlreadySettled)
        else
          match settleLoop round_id keys
              { tickets := σ.tickets
                settled := round1.settled_count
                losers := 0 } with
          | .error e => .error e
          | .ok acc =>
              match checkedMul σ.config.stake_amount acc.losers with
              | none => .error (.prog .MathOverflow)
              | some burnAmt =>
                  if σ.vaultTok < burnAmt then .error .tokenInsufficientFunds
                  else
                    .ok { σ with
                          round :=
                            (if acc.settled = round1.committed_count then
                               { round1 with
                                 settled_count := acc.settled
                                 token_settled := true
                                 token_settled_slot := current_slot }
                             else { round1 with settled_count := acc.settled })
                          tickets := acc.tickets
                          vaultTok := σ.vaultTok - burnAmt
                          log := σ.log ++
                            (if burnAmt > 0 then [TokenEvent.burn burnAmt]
                             else []) }

/-- `sweep_unclaimed` from `lifecycle.rs`. -/
def sweep_unclaimed (σ : Chain) (current_slot round_id admin : Nat) :
    Except Err Chain :=
  if σ.config.paused then .error (.prog .Paused)
  else if σ.config.admin ≠ admin then .error (.prog .Unauthorized)
  else if σ.round.round_id ≠ round_id then .error (.prog .TicketPdaMismatch)
  else if ¬ σ.round.finalized then .error (.prog .NotFinalized)
  else if σ.round.swept then .error (.prog .AlreadySwept)
  else if ¬ satAdd64 σ.round.reveal_deadline_slot σ.config.claim_grace_slots <
      current_slot then
    .error (.prog .SweepTooEarly)
  else
    .ok { σ with
          round := { σ.round with swept := true, swept_slot := current_slot }
          vaultSol := 0
          treasurySol := σ.treasurySol + σ.vaultSol
          vaultTok := 0
          treasuryTok := σ.treasuryTok + σ.vaultTok
          log := σ.log ++
            (if σ.vaultSol > 0 then [TokenEvent.sweepLamports σ.vaultSol]
             else []) ++
            (if σ.vaultTok > 0 then [TokenEvent.sweepTokens σ.vaultTok]
             else []) }

/-- `recover_funds` from `lifecycle.rs` (owner-triggered refund; the
`RecoverFunds` context resolves the ticket by address with
`has_one = user` and closes it with `close = user` on success). -/
def recover_funds_body (σ : Chain) (current_slot round_id nonce user : Nat)
    (t : Ticket) : Except Err Chain :=
  if σ.config.paused then .error (.prog .Paused)
  else if σ.round.round_id ≠ round_id then .error (.prog .TicketPdaMismatch)
  else if σ.round.finalized then .error (.prog .AlreadyFinalized)
  else if ¬ satAdd64 σ.round.reveal_deadline_slot REFUND_TIMEOUT_SLOTS <
      current_slot then
    .error (.prog .RefundTooEarly)
  else if σ.round.pulse_set then .error (.prog .PulseAlreadySet)
  else if t.round_id ≠ round_id then .error (.prog .TicketPdaMismatch)
  else if t.processed then .error (.prog .TicketAlreadyProcessed)
  else if σ.vaultTok < σ.config.stake_amount then
    .error .tokenInsufficientFunds
  else
    .ok { σ with
          round := { σ.round with
                     committed_count :=
                       if 0 < σ.round.committed_count then
                         σ.round.committed_count - 1
                       else σ.round.committed_count }
          tickets := removeTicket σ.tickets user nonce
          vaultTok := σ.vaultTok - σ.config.stake_amount
          userTok := creditBal σ.userTok user σ.config.stake_amount
          log := σ.log ++
            [TokenEvent.stakeReturn user σ.config.stake_amount] }

/-- `recover_funds` (account resolution then body). -/
def recover_funds (σ : Chain) (current_slot round_id nonce user : Nat) :
    Except Err Chain :=
  match findTicket σ.tickets user nonce with
  | none => .error .accountNotFound
  | some t => recover_funds_body σ current_slot round_id nonce user t

/-- `recover_funds_anyone` from `lifecycle.rs` (cranker-triggered refund;
the `RecoverFundsAnyone` context seed-binds the ticket to
`(round_id, user, nonce)` and closes it with `close = user` on success).
Note: unlike `recover_funds`, the body has no `paused` gate and no
`!round.pulse_set` gate. -/
def recover_funds_anyone_body (σ : Chain) (current_slot round_id nonce
    user : Nat) (t : Ticket) : Except Err Chain :=
  if σ.round.round_id ≠ round_id then .error (.prog .TicketPdaMismatch)
  else if σ.round.finalized then .error (.prog .AlreadyFinalized)
  else if ¬ satAdd64 σ.round.reveal_deadline_slot REFUND_TIMEOUT_SLOTS <
      current_slot then
    .error (.prog .RefundTooEarly)
  else if t.processed then .error (.prog .TicketAlreadyProcessed)
  else if σ.vaultTok < σ.config.stake_amount then
    .error .tokenInsufficientFunds
  else
    .ok { σ with
          round := { σ.round with
                     committed_count :=
                       if 0 < σ.round.committed_count then
                         σ.round.committed_count - 1
                       else σ.round.committed_count }
          tickets := removeTicket σ.tickets user nonce
          vaultTok := σ.vaultTok - σ.config.stake_amount
          userTok := creditBal σ.userTok user σ.config.stake_amount
          log := σ.log ++
            [TokenEvent.stakeReturn user σ.config.stake_amount] }

/-- `recover_funds_anyone` (account resolution then body). -/
def recover_funds_anyone (σ : Chain) (current_slot round_id nonce user
    _cranker : Nat) : Except Err Chain :=
  match findTicket σ.tickets user nonce with
  | none => .error .accountNotFound
  | some t => recover_funds_anyone_body σ current_slot round_id nonce user t

/-! ## Reward claim (`reward.rs::claim_reward`) -/

/-- The ticket mutation written by the body of `claim_reward` just before
Anchor's `close = user` constraint closes the account. -/
def claimWrite (t : Ticket) (current_slot : Nat) : Ticket :=
  { t with claimed := true, claimed_slot := current_slot }

/-- `claim_reward` from `reward.rs`: settled/unswept gates, ownership and
ticket-state gates, stake returned from the vault, fee split
`fee = stake_amount * reward_fee_bps / 10000`, a mint to the user of
`stake_amount - fee` and a mint to the fee pool of `fee` (each skipped when
zero), the claim mark, then the ticket account is closed. -/
def claim_reward_body (σ : Chain) (_current_slot nonce user : Nat)
    (t : Ticket) : Except Err Chain :=
  if ¬ σ.round.token_settled then .error (.prog .RoundNotSettled)
  else if σ.round.swept then .error (.prog .ClaimAfterSweep)
  else if t.user ≠ user then .error (.prog .Unauthorized)
  else if t.round_id ≠ σ.round.round_id then .error (.prog .TicketPdaMismatch)
  else if ¬ t.stake_paid then .error (.prog .StakeNotPaid)
  else if ¬ t.revealed then .error (.prog .TicketNotRevealed)
  else if ¬ t.win then .error (.prog .NotWinner)
  else if t.claimed then .error (.prog .AlreadyClaimed)
  else if σ.vaultTok < σ.config.stake_amount then
    .error .tokenInsufficientFunds
  else if ¬ σ.tokenomics.reward_fee_bps ≤ 10000 then .error (.prog .InvalidBps)
  else
    match checkedMul σ.config.stake_amount σ.tokenomics.reward_fee_bps with
    | none => .error (.prog .MathOverflow)
    | some m =>
        match checkedDiv m 10000 with
        | none => .error (.prog .MathOverflow)
        | some fee =>
            match checkedSub σ.config.stake_amount fee with
            | none => .error (.prog .MathOverflow)
            | some userReward =>
                .ok { σ with
                      tickets := removeTicket σ.tickets user nonce
                      vaultTok := σ.vaultTok - σ.config.stake_amount
                      userTok := creditBal σ.userTok user
                        (σ.config.stake_amount + userReward)
                      feePoolTok := σ.feePoolTok + fee
                      log := σ.log ++
                        [TokenEvent.stakeReturn user σ.config.stake_amount]
                        ++ (if userReward > 0 then
                             [TokenEvent.mintUser user userReward] else [])
                        ++ (if fee > 0 then [TokenEvent.mintFeePool fee]
                            else []) }

/-- `claim_reward` (account resolution then body). -/
def claim_reward (σ : Chain) (current_slot _round_id nonce user : Nat) :
    Except Err Chain :=
  match findTicket σ.tickets user nonce with
  | none => .error .accountNotFound
  | some t => claim_reward_body σ current_slot nonce user t

/-! ## Operations on a round and reachability -/

/-- One user-invocable operation on a round (the instruction set of the
round lifecycle; `round_id` is supplied by the seed-bound round account). -/
inductive Op where
  | commitTicketOp (nonce user : Nat) (commitment : List Nat)
  | commitBatchOp (user : Nat) (entries : List CommitEntry)
  | commitBatchSignedOp (payer user : Nat) (entries : List CommitSignedEntry)
      (attests : List (Nat × List Nat))
  | revealTicketOp (nonce user guess : Nat) (salt : List Nat)
  | revealBatchOp (user : Nat) (entries : List RevealEntry)
  | revealBatchSignedOp (entries : List RevealSignedEntry)
      (attests : List (Nat × List Nat))
  | setPulseSignedOp (pulse : List Nat) (attest : Option (Nat × List Nat))
  | finalizeRoundOp (admin : Nat)
  | settleRoundTokensOp (keys : List (Nat × Nat))
  | sweepUnclaimedOp (admin : Nat)
  | claimRewardOp (nonce user : Nat)
  | recoverFundsOp (nonce user : Nat)
  | recoverFundsAnyoneOp (cranker nonce user : Nat)

/-- Execute one operation at the given slot.  Each instruction addresses the
round through its seed-derived PDA, so the `round_id` argument fed to the
handlers is the stored one. -/
def step (σ : Chain) (slot : Nat) (op : Op) : Except Err Chain :=
  match op with
  | .commitTicketOp nonce user c =>
      commit_ticket σ slot σ.round.round_id nonce user c
  | .commitBatchOp user entries =>
      commit_batch σ slot σ.round.round_id user entries
  | .commitBatchSignedOp payer user entries attests =>
      commit_batch_signed σ slot σ.round.round_id payer user entries attests
  | .revealTicketOp nonce user guess salt =>
      reveal_ticket σ slot σ.round.round_id nonce user guess salt
  | .revealBatchOp user entries =>
      reveal_batch σ slot σ.round.round_id user entries
  | .revealBatchSignedOp entries attests =>
      reveal_batch_signed σ slot σ.round.round_id entries attests
  | .setPulseSignedOp pulse attest =>
      set_pulse_signed σ slot σ.round.round_id pulse attest
  | .finalizeRoundOp admin => finalize_round σ slot σ.round.round_id admin
  | .settleRoundTokensOp keys =>
      settle_round_tokens σ slot σ.round.round_id keys
  | .sweepUnclaimedOp admin => sweep_unclaimed σ slot σ.round.round_id admin
  | .claimRewardOp nonce user => claim_reward σ slot σ.round.round_id nonce user
  | .recoverFundsOp nonce user =>
      recover_funds σ slot σ.round.round_id nonce user
  | .recoverFundsAnyoneOp cranker nonce user =>
      recover_funds_anyone σ slot σ.round.round_id nonce user cranker

/-- Multi-step reachability: `Steps σ τ` holds when `τ` results from `σ` by
a (possibly empty) sequence of successful operations at arbitrary slots. -/
inductive Steps : Chain → Chain → Prop where
  | refl (σ : Chain) : Steps σ σ
  | tail {σ τ τ2 : Chain} (slot : Nat) (op : Op) :
      Steps σ τ → step τ slot op = .ok τ2 → Steps σ τ2

/-- Numeric phase of a round (`RoundState` discriminant stored in
`round.state`). -/
def phaseVal (r : Round) : Nat := r.state

/-- Coherence of the stored phase discriminant with the lifecycle flags:
`state` is `2` exactly on finalized rounds, `1` on pulse-set unfinalized
rounds and `0` otherwise.  This holds for freshly created rounds and is
preserved by every operation. -/
def PhaseInv (σ : Chain) : Prop :=
  σ.round.state =
    (if σ.round.finalized then 2 else if σ.round.pulse_set then 1 else 0)

instance (σ : Chain) : Decidable (PhaseInv σ) := by
  unfold PhaseInv; infer_instance

/-! ## Helper lemmas on the ticket ledger -/

theorem findTicket_cons (a : Ticket) (rest : List Ticket) (u n : Nat) :
    findTicket (a :: rest) u n =
      if keyMatch a u n then some a else findTicket rest u n := rfl

theorem setTicket_cons (a : Ticket) (rest : List Ticket) (u n : Nat)
    (t2 : Ticket) :
    setTicket (a :: rest) u n t2 =
      if keyMatch a u n then t2 :: rest else a :: setTicket rest u n t2 := rfl

theorem removeTicket_cons (a : Ticket) (rest : List Ticket) (u n : Nat) :
    removeTicket (a :: rest) u n =
      if keyMatch a u n then rest else a :: removeTicket rest u n := rfl

theorem findTicket_key (ts : List Ticket) (u n : Nat) (t : Ticket)
    (h : findTicket ts u n = some t) : t.user = u ∧ t.nonce = n := by
  induction ts with
  | nil => simp [findTicket] at h
  | cons a rest ih =>
      rw [findTicket_cons] at h
      by_cases hk : keyMatch a u n = true
      · rw [if_pos hk] at h
        injection h with h2
        subst h2
        exact (keyMatch_iff _ _ _).mp hk
      · rw [if_neg hk] at h
        exact ih h

theorem findTicket_setTicket_self (ts : List Ticket) (u n : Nat)
    (t t2 : Ticket) (hu : t2.user = u) (hn : t2.nonce = n)
    (h : findTicket ts u n = some t) :
    findTicket (setTicket ts u n t2) u n = some t2 := by
  have hk2 : keyMatch t2 u n = true := (keyMatch_iff t2 u n).mpr ⟨hu, hn⟩
  induction ts with
  | nil => simp [findTicket] at h
  | cons a rest ih =>
      rw [findTicket_cons] at h
      rw [setTicket_cons]
      by_cases hk : keyMatch a u n = true
      · rw [if_pos hk, findTicket_cons, if_pos hk2]
      · rw [if_neg hk] at h
        rw [if_neg hk, findTicket_cons, if_neg hk]
        exact ih h

theorem findTicket_setTicket_other (ts : List Ticket) (u n u2 n2 : Nat)
    (t2 : Ticket) (hne : ¬(u2 = u ∧ n2 = n)) (hu : t2.user = u)
    (hn : t2.nonce = n) :
    findTicket (setTicket ts u n t2) u2 n2 = findTicket ts u2 n2 := by
  have hk2 : ¬keyMatch t2 u2 n2 = true := by
    rw [keyMatch_iff]
    rintro ⟨h1, h2⟩
    exact hne ⟨h1.symm.trans hu, h2.symm.trans hn⟩
  induction ts with
  | nil => rfl
  | cons a rest ih =>
      rw [setTicket_cons]
      by_cases hk : keyMatch a u n = true
      · have hka : ¬keyMatch a u2 n2 = true := by
          rw [keyMatch_iff] at hk ⊢
          rintro ⟨h1, h2⟩
          exact hne ⟨h1.symm.trans hk.1, h2.symm.trans hk.2⟩
        rw [if_pos hk, findTicket_cons, if_neg hk2, findTicket_cons,
          if_neg hka]
      · rw [if_neg hk, findTicket_cons, findTicket_cons]
        by_cases hka : keyMatch a u2 n2 = true
        · rw [if_pos hka, if_pos hka]
        · rw [if_neg hka, if_neg hka]
          exact ih

theorem length_setTicket (ts : List Ticket) (u n : Nat) (t2 : Ticket) :
    (setTicket ts u n t2).length = ts.length := by
  induction ts with
  | nil => rfl
  | cons a rest ih =>
      rw [setTicket_cons]
      by_cases hk : keyMatch a u n = true
      · rw [if_pos hk]
        simp
      · rw [if_neg hk]
        simpa using ih

theorem countP_setTicket (p : Ticket → Bool) (ts : List Ticket) (u n : Nat)
    (t t2 : Ticket) (h : findTicket ts u n = some t) :
    (setTicket ts u n t2).countP p + (if p t then 1 else 0) =
      ts.countP p + (if p t2 then 1 else 0) := by
  induction ts with
  | nil => simp [findTicket] at h
  | cons a rest ih =>
      rw [findTicket_cons] at h
      rw [setTicket_cons]
      by_cases hk : keyMatch a u n = true
      · rw [if_pos hk] at h
        cases h
        rw [if_pos hk]
        simp only [List.countP_cons]
        omega
      · rw [if_neg hk] at h
        rw [if_neg hk]
        simp only [List.countP_cons]
        have := ih h
        omega

/-- No two ticket accounts share the seed key `(user, nonce)` (guaranteed on
a real ledger by address derivation: one address, one account). -/
def NoDupKeys (ts : List Ticket) : Prop :=
  ts.Pairwise (fun a b => ¬(a.user = b.user ∧ a.nonce = b.nonce))

instance (ts : List Ticket) : Decidable (NoDupKeys ts) := by
  unfold NoDupKeys; infer_instance

theorem findTicket_eq_none (ts : List Ticket) (u n : Nat)
    (h : ∀ b ∈ ts, ¬(b.user = u ∧ b.nonce = n)) : findTicket ts u n = none := by
  induction ts with
  | nil => rfl
  | cons a rest ih =>
      have hk : ¬keyMatch a u n = true := by
        rw [keyMatch_iff]
        exact h a (by simp)
      rw [findTicket_cons, if_neg hk]
      exact ih (fun b hb => h b (by simp [hb]))

theorem findTicket_removeTicket_self (ts : List Ticket) (u n : Nat)
    (hnd : NoDupKeys ts) (t : Ticket) (h : findTicket ts u n = some t) :
    findTicket (removeTicket ts u n) u n = none := by
  induction ts with
  | nil => simp [findTicket] at h
  | cons a rest ih =>
      rcases List.pairwise_cons.mp hnd with ⟨hsep, hrest⟩
      rw [findTicket_cons] at h
      rw [removeTicket_cons]
      by_cases hk : keyMatch a u n = true
      · rw [if_pos hk]
        rw [keyMatch_iff] at hk
        refine findTicket_eq_none rest u n (fun b hb hc => ?_)
        exact hsep b hb ⟨hk.1.trans hc.1.symm, hk.2.trans hc.2.symm⟩
      · rw [if_neg hk] at h
        rw [if_neg hk, findTicket_cons, if_neg hk]
        exact ih hrest h

theorem findTicket_removeTicket_other (ts : List Ticket) (u n u2 n2 : Nat)
    (hne : ¬(u2 = u ∧ n2 = n)) :
    findTicket (removeTicket ts u n) u2 n2 = findTicket ts u2 n2 := by
  induction ts with
  | nil => rfl
  | cons a rest ih =>
      rw [removeTicket_cons]
      by_cases hk : keyMatch a u n = true
      · have hka : ¬keyMatch a u2 n2 = true := by
          rw [keyMatch_iff] at hk ⊢
          rintro ⟨h1, h2⟩
          exact hne ⟨h1.symm.trans hk.1, h2.symm.trans hk.2⟩
        rw [if_pos hk, findTicket_cons, if_neg hka]
      · rw [if_neg hk, findTicket_cons, findTicket_cons]
        by_cases hka : keyMatch a u2 n2 = true
        · rw [if_pos hka, if_pos hka]
        · rw [if_neg hka, if_neg hka]
          exact ih

/-! ## Codec lemmas -/

theorem derive_bit_index_eq (round_id user nonce : Nat) :
    derive_bit_index round_id user nonce =
      ((hashv [TAG_BITINDEX, u64le round_id, pkBytes user, u64le nonce]).getD
          0 0 +
        256 *
          (hashv [TAG_BITINDEX, u64le round_id, pkBytes user,
              u64le nonce]).getD 1 0) %
        512 := rfl

theorem derive_bit_index_lt (round_id user nonce : Nat) :
    derive_bit_index round_id user nonce < 512 := by
  rw [derive_bit_index_eq]
  exact Nat.mod_lt _ (by norm_num)

theorem get_pulse_bit_isSome (pulse : List Nat) (bit_index : Nat)
    (hlen : pulse.length = 64) (hidx : bit_index < 512) :
    (get_pulse_bit pulse bit_index).isSome = true := by
  have hdiv : bit_index / 8 < pulse.length := by
    rw [hlen]
    exact (Nat.div_lt_iff_lt_mul (by norm_num)).mpr (by omega)
  unfold get_pulse_bit
  rw [dif_pos hdiv]
  rfl

theorem reveal_core_ok (round : Round) (t : Ticket)
    (user_pk round_id nonce guess : Nat) (salt : List Nat) (slot : Nat)
    (t2 : Ticket)
    (h : reveal_core round t user_pk round_id nonce guess salt slot = .ok t2) :
    commit_hash round_id user_pk nonce guess salt = t.commitment ∧
    t.bit_index = derive_bit_index round_id user_pk nonce ∧
    ∃ b, get_pulse_bit round.pulse t.bit_index = some b ∧
      t2 = { t with revealed := true, guess := guess, win := b == guess, revealed_slot := slot } := by
  unfold reveal_core at h
  by_cases h1 : commit_hash round_id user_pk nonce guess salt = t.commitment
  · rw [if_neg (fun hc => hc h1)] at h
    by_cases h2 : t.bit_index = derive_bit_index round_id user_pk nonce
    · rw [if_neg (fun hc => hc h2)] at h
      cases hb : get_pulse_bit round.pulse t.bit_index with
      | none => rw [hb] at h; exact absurd h (by simp)
      | some b =>
          rw [hb] at h
          injection h with h3
          exact ⟨h1, h2, b, rfl, h3.symm⟩
    · rw [if_pos h2] at h
      exact absurd h (by simp)
  · rw [if_pos h1] at h
    exact absurd h (by simp)

/-- C4: for every reveal that succeeds, the ticket's `win` flag equals the
comparison of the pulse bit at the ticket's `bit_index` (read as
`(pulse[idx/8] >> (idx%8)) & 1`) with the guess; the bit index re-derived
at reveal from `(round_id, user, nonce)` is a deterministic function whose
value every commit path stores in the ticket, and a reveal of a ticket
whose stored `bit_index` differs from the re-derived value fails with
`BitIndexMismatch`. -/
theorem c4_reveal_win_and_bit_index :
    (∀ round t user_pk round_id nonce guess salt slot t2,
        reveal_core round t user_pk round_id nonce guess salt slot = .ok t2 →
        t.bit_index = derive_bit_index round_id user_pk nonce ∧
        t2.bit_index = t.bit_index ∧ t2.revealed = true ∧ t2.guess = guess ∧
        ∃ b, get_pulse_bit round.pulse t.bit_index = some b ∧ t2.win = (b == guess)) ∧
    (∀ round t user_pk round_id nonce guess salt slot,
        commit_hash round_id user_pk nonce guess salt = t.commitment →
        t.bit_index ≠ derive_bit_index round_id user_pk nonce →
        reveal_core round t user_pk round_id nonce guess salt slot =
          .error (.prog .BitIndexMismatch)) ∧
    (∀ round_id user nonce commitment slot,
        (mkTicket round_id user nonce commitment slot).bit_index =
          derive_bit_index round_id user nonce) ∧
    (∀ σ slot round_id nonce user guess salt σ2,
        reveal_ticket σ slot round_id nonce user guess salt = .ok σ2 →
        ∃ t b, findTicket σ.tickets user nonce = some t ∧
          t.bit_index = derive_bit_index round_id user nonce ∧
          get_pulse_bit σ.round.pulse t.bit_index = some b ∧
          findTicket σ2.tickets user nonce = some
            { t with revealed := true, guess := guess, win := b == guess, revealed_slot := slot }) := by
  refine ⟨?_, ?_, ?_, ?_⟩
  · intro round t user_pk round_id nonce guess salt slot t2 h
    obtain ⟨_, h2, b, hb, ht2⟩ :=
      reveal_core_ok round t user_pk round_id nonce guess salt slot t2 h
    subst ht2
    exact ⟨h2, rfl, rfl, rfl, b, hb, rfl⟩
  · intro round t user_pk round_id nonce guess salt slot h1 h2
    unfold reveal_core
    rw [if_neg (fun hc => hc h1), if_pos h2]
  · intro round_id user nonce commitment slot
    rfl
  · intro σ slot round_id nonce user guess salt σ2 h
    unfold reveal_ticket at h
    split at h
    · exact absurd h (by simp)
    · rename_i t hf
      obtain ⟨hu, hn⟩ := findTicket_key σ.tickets user nonce t hf
      unfold reveal_ticket_body at h
      split at h
      · exact absurd h (by simp)
      split at h
      · exact absurd h (by simp)
      split at h
      · exact absurd h (by simp)
      split at h
      · exact absurd h (by simp)
      split at h
      · exact absurd h (by simp)
      split at h
      · exact absurd h (by simp)
      split at h
      · exact absurd h (by simp)
      rename_i t2 hrc
      obtain ⟨_, h2, b, hb, ht2⟩ :=
        reveal_core_ok σ.round t user round_id nonce guess salt slot t2 hrc
      split at h
      · exact absurd h (by simp)
      rename_i rc hca
      refine ⟨t, b, hf, h2, hb, ?_⟩
      split at h
      · split at h
        · exact absurd h (by simp)
        · injection h with hσ
          subst hσ
          subst ht2
          exact findTicket_setTicket_self σ.tickets user nonce t _ hu hn hf
      · injection h with hσ
        subst hσ
        subst ht2
        exact findTicket_setTicket_self σ.tickets user nonce t _ hu hn hf

/-- C10: `derive_bit_index` is strictly below `512` for every input; commits
store exactly this derived value, `reveal_core` rejects any ticket whose
stored `bit_index` differs from the re-derived value, and therefore the
pulse byte access `pulse[bit_index / 8]` inside `get_pulse_bit` is in
bounds for every reveal that reaches it: the panic (out-of-bounds) branch
is unreachable. -/
theorem c10_pulse_access_in_bounds :
    (∀ round_id user nonce, derive_bit_index round_id user nonce < 512) ∧
    (∀ pulse bit_index, pulse.length = 64 → bit_index < 512 →
        (get_pulse_bit pulse bit_index).isSome = true) ∧
    (∀ round_id user nonce commitment slot,
        (mkTicket round_id user nonce commitment slot).bit_index =
          derive_bit_index round_id user nonce) ∧
    (∀ round t user_pk round_id nonce guess salt slot,
        round.pulse.length = 64 →
        t.bit_index = derive_bit_index round_id user_pk nonce →
        reveal_core round t user_pk round_id nonce guess salt slot ≠
          .error .panicked) := by
  refine ⟨derive_bit_index_lt, get_pulse_bit_isSome, fun _ _ _ _ _ => rfl,
    ?_⟩
  intro round t user_pk round_id nonce guess salt slot hlen hbit hcon
  unfold reveal_core at hcon
  by_cases h1 : commit_hash round_id user_pk nonce guess salt = t.commitment
  · rw [if_neg (fun hc => hc h1), if_neg (fun hc => hc hbit)] at hcon
    have hs : (get_pulse_bit round.pulse t.bit_index).isSome = true :=
      get_pulse_bit_isSome round.pulse t.bit_index hlen
        (hbit ▸ derive_bit_index_lt round_id user_pk nonce)
    cases hgb : get_pulse_bit round.pulse t.bit_index with
    | none => rw [hgb] at hs; exact absurd hs (by simp)
    | some b => rw [hgb] at hcon; exact absurd hcon (by simp)
  · rw [if_pos h1] at hcon
    exact absurd hcon (by simp)

/-! ## Shared concrete example state (used by the witnesses) -/

/-- A 32-byte salt. -/
def exSalt : List Nat := List.replicate 32 0

/-- The commitment of the example ticket. -/
def exCommitment : List Nat := commit_hash 1 5 7 1 exSalt

/-- A round after its pulse was set (all-zero pulse). -/
def exRoundPS : Round :=
  { initRound 1 0 100 200 10 with
    pulse_set := true
    pulse := List.replicate 64 0
    pulse_set_slot := 150
    state := 1 }

/-- The example committed ticket for user `5`, nonce `7` in round `1`. -/
def exTicket : Ticket := mkTicket 1 5 7 exCommitment 50

/-- The example ticket after a reveal of guess `1` at slot `180` against the
all-zero pulse (the pulse bit is `0`, so the ticket loses). -/
def exTicketRevealed : Ticket :=
  { exTicket with
    revealed := true
    guess := 1
    win := ((0 : Nat) == 1)
    revealed_slot := 180 }

theorem c4_witness :
    reveal_core exRoundPS exTicket 5 1 7 1 exSalt 180 = .ok exTicketRevealed ∧
    (exTicket.bit_index = derive_bit_index 1 5 7 ∧
     exTicketRevealed.bit_index = exTicket.bit_index ∧
     exTicketRevealed.revealed = true ∧ exTicketRevealed.guess = 1 ∧
     ∃ b, get_pulse_bit exRoundPS.pulse exTicket.bit_index = some b ∧
       exTicketRevealed.win = (b == 1)) :=
  ⟨by decide,
   c4_reveal_win_and_bit_index.1 exRoundPS exTicket 5 1 7 1 exSalt 180
     exTicketRevealed (by decide)⟩

theorem c10_witness :
    exRoundPS.pulse.length = 64 ∧
    exTicket.bit_index = derive_bit_index 1 5 7 ∧
    reveal_core exRoundPS exTicket 5 1 7 1 exSalt 180 ≠ .error .panicked :=
  ⟨by decide, by decide,
   c10_pulse_access_in_bounds.2.2.2 exRoundPS exTicket 5 1 7 1 exSalt 180
     (by decide) (by decide)⟩

/-! ## Example configuration and chains -/

/-- Example protocol configuration: admin `9`, oracle `3`, stake `100`. -/
def exCfg : Config :=
  { admin := 9
    stake_amount := 100
    commit_window_slots := 1000
    reveal_window_slots := 1000
    claim_grace_slots := 900
    oracle_pubkey := 3
    paused := false
    timlg_mint := 11 }

/-- A hash-free committed ticket used by concrete chain-level witnesses
(the refund / claim / settle paths never read the commitment bytes). -/
def wTicket : Ticket :=
  { round_id := 1
    user := 5
    nonce := 7
    commitment := List.replicate 32 0
    stake_paid := true
    stake_slashed := false
    processed := false
    revealed := false
    guess := 0
    win := false
    bit_index := 3
    claimed := false
    claimed_slot := 0
    created_slot := 50
    revealed_slot := 0 }

/-- A chain stuck after the pulse was set but never finalized: round `1`
with deadlines `100` / `200`, pulse set at slot `150`, one committed,
unrevealed ticket `(user 5, nonce 7)` and its stake in the vault. -/
def exChainPS : Chain :=
  { config := exCfg
    tokenomics := { reward_fee_bps := 100 }
    round := { exRoundPS with committed_count := 1 }
    tickets := [wTicket]
    vaultTok := 100
    userTok := [(5, 0)]
    escrowTok := []
    feePoolTok := 0
    treasuryTok := 0
    vaultSol := 0
    treasurySol := 0
    log := [] }

/-- The state produced by the cranker refund on `exChainPS` at slot `351`. -/
def exChainPSRefunded : Chain :=
  { exChainPS with
    round := { exChainPS.round with committed_count := 0 }
    tickets := []
    vaultTok := 0
    userTok := [(5, 100)]
    log := [TokenEvent.stakeReturn 5 100] }

/-- C1: the claim states that once `pulse_set` is true every refund attempt
on any ticket of the round fails, for both `recover_funds` and
`recover_funds_anyone`.  The owner path enforces this
(`PulseAlreadySet`), but the cranker path omits the `!pulse_set` check:
on a round with the pulse set, never finalized, past the refund timeout,
`recover_funds_anyone` succeeds and moves the stake out of the vault —
contradicting the claim, the spec (§4.7) and the `SECURITY` comment
guarding the sibling `recover_funds`. -/
theorem c1_refund_after_pulse_bug :
    exChainPS.round.pulse_set = true ∧
    exChainPS.round.finalized = false ∧
    recover_funds exChainPS 351 1 7 5 = .error (.prog .PulseAlreadySet) ∧
    recover_funds_anyone exChainPS 351 1 7 5 2 = .ok exChainPSRefunded := by
  refine ⟨rfl, rfl, by decide, by decide⟩

/-! ## C9: arithmetic model of the deadline validation -/

/-- C9 counterexample: the claim states that no core arithmetic silently
wraps modulo `2^64` and that the deadline validation of `create_round`
never wraps for any pair of `u64` arguments.  But the validation uses an
unchecked `u64` addition: with `commit_deadline_slot = 2^64 - 11` and
`reveal_deadline_slot = 2^64 - 1` the sum wraps to `49`, the validation
passes, and `create_round` accepts a round whose actual reveal window is
`10 < MIN_REVEAL_WINDOW_SLOTS` slots — with no `MathOverflow` abort. -/
theorem c9_counterexample_wrap :
    create_round exCfg 9 10 1 0 18446744073709551605 18446744073709551615 =
      .ok (initRound 1 0 18446744073709551605 18446744073709551615 10) ∧
    wrapAdd64 18446744073709551605 MIN_REVEAL_WINDOW_SLOTS = 49 ∧
    18446744073709551615 < 18446744073709551605 + MIN_REVEAL_WINDOW_SLOTS := by
  refine ⟨by decide, by decide, by decide⟩

/-- C9 (amended): the checked `u64` operations used by the core counters,
burns and fees return the mathematically exact result or reject
(surfaced as `MathOverflow` by every caller in the embedding); the
deadline-validation addition in `create_round` is exact — and the
validation accepts exactly the deadline pairs satisfying the intended
bounds — provided `commit_deadline_slot + MIN_REVEAL_WINDOW_SLOTS`
does not exceed `u64::MAX` (outside that range it wraps, see the
counterexample). -/
theorem c9_checked_arithmetic :
    (∀ a b : Nat, (∀ c, checkedAdd a b = some c → c = a + b) ∧
        (checkedAdd a b = none → ¬ a + b < U64LIMIT)) ∧
    (∀ a b : Nat, (∀ c, checkedMul a b = some c → c = a * b) ∧
        (checkedMul a b = none → ¬ a * b < U64LIMIT)) ∧
    (∀ a b : Nat, (∀ c, checkedSub a b = some c → c + b = a) ∧
        (checkedSub a b = none → a < b)) ∧
    (∀ a b : Nat, b ≠ 0 → checkedDiv a b = some (a / b)) ∧
    (∀ commit : Nat, commit + MIN_REVEAL_WINDOW_SLOTS < U64LIMIT →
        wrapAdd64 commit MIN_REVEAL_WINDOW_SLOTS =
          commit + MIN_REVEAL_WINDOW_SLOTS) ∧
    (∀ (cfg : Config) (admin slot rid tgt commit reveal : Nat),
        commit + MIN_REVEAL_WINDOW_SLOTS < U64LIMIT →
        (create_round cfg admin slot rid tgt commit reveal =
            .ok (initRound rid tgt commit reveal slot) ↔
          cfg.paused = false ∧ cfg.admin = admin ∧ commit < reveal ∧
            commit + MIN_REVEAL_WINDOW_SLOTS ≤ reveal)) := by
  refine ⟨?_, ?_, ?_, ?_, ?_, ?_⟩
  · intro a b
    constructor
    · intro c hc
      unfold checkedAdd at hc
      split at hc
      · cases hc; rfl
      · exact absurd hc (by simp)
    · intro hc
      unfold checkedAdd at hc
      split at hc
      · exact absurd hc (by simp)
      · assumption
  · intro a b
    constructor
    · intro c hc
      unfold checkedMul at hc
      split at hc
      · cases hc; rfl
      · exact absurd hc (by simp)
    · intro hc
      unfold checkedMul at hc
      split at hc
      · exact absurd hc (by simp)
      · assumption
  · intro a b
    constructor
    · intro c hc
      unfold checkedSub at hc
      split at hc
      · cases hc; omega
      · exact absurd hc (by simp)
    · intro hc
      unfold checkedSub at hc
      split at hc
      · exact absurd hc (by simp)
      · omega
  · intro a b hb
    unfold checkedDiv
    rw [if_neg hb]
  · intro commit hlt
    unfold wrapAdd64
    exact Nat.mod_eq_of_lt hlt
  · intro cfg admin slot rid tgt commit reveal hlt
    have hwrap : wrapAdd64 commit MIN_REVEAL_WINDOW_SLOTS =
        commit + MIN_REVEAL_WINDOW_SLOTS := Nat.mod_eq_of_lt hlt
    unfold create_round
    constructor
    · intro h
      split at h
      · exact absurd h (by simp)
      split at h
      · exact absurd h (by simp)
      split at h
      · exact absurd h (by simp)
      split at h
      · exact absurd h (by simp)
      rename_i h1 h2 h3 h4
      rw [hwrap] at h4
      exact ⟨by simpa using h1, by omega, by omega, by omega⟩
    · rintro ⟨h1, h2, h3, h4⟩
      rw [if_neg (by simp [h1]), if_neg (by omega), if_neg (by omega),
        if_neg (by rw [hwrap]; omega)]

/-! ## Balance lemmas -/

theorem lookupBal_setBal_self (m : List (Nat × Nat)) (k v : Nat) :
    lookupBal (setBal m k v) k = v := by
  induction m with
  | nil => simp [setBal, lookupBal]
  | cons p rest ih =>
      obtain ⟨a, w⟩ := p
      by_cases ha : a = k
      · simp [setBal, lookupBal, ha]
      · simp [setBal, lookupBal, ha, ih]

theorem lookupBal_creditBal_self (m : List (Nat × Nat)) (k amt : Nat) :
    lookupBal (creditBal m k amt) k = lookupBal m k + amt :=
  lookupBal_setBal_self m k (lookupBal m k + amt)

theorem findTicket_some_length (ts : List Ticket) (u n : Nat) (t : Ticket)
    (h : findTicket ts u n = some t) : 1 ≤ ts.length := by
  cases ts with
  | nil => simp [findTicket] at h
  | cons a rest => simp

/-- C2: on both refund paths a refund is accepted only for a ticket that is
not yet processed; a successful refund transfers exactly `stake_amount`
from the round vault back to the user, decrements `committed_count` by one,
and closes the ticket account (Anchor `close = user`, the code's "resolved"
marker for a refunded ticket), so a second refund attempt on the same
ticket — by the owner or by a cranker — always fails. -/
theorem c2_refund_at_most_once :
    (∀ σ slot rid nonce user σ2,
        recover_funds σ slot rid nonce user = .ok σ2 →
        ∃ t, findTicket σ.tickets user nonce = some t ∧
          t.processed = false) ∧
    (∀ σ slot rid nonce user cranker σ2,
        recover_funds_anyone σ slot rid nonce user cranker = .ok σ2 →
        ∃ t, findTicket σ.tickets user nonce = some t ∧
          t.processed = false) ∧
    (∀ σ slot rid nonce user σ2,
        NoDupKeys σ.tickets →
        σ.tickets.length ≤ σ.round.committed_count →
        recover_funds σ slot rid nonce user = .ok σ2 →
        σ2.vaultTok + σ.config.stake_amount = σ.vaultTok ∧
        lookupBal σ2.userTok user =
          lookupBal σ.userTok user + σ.config.stake_amount ∧
        σ2.log = σ.log ++ [TokenEvent.stakeReturn user σ.config.stake_amount] ∧
        σ2.round.committed_count + 1 = σ.round.committed_count ∧
        findTicket σ2.tickets user nonce = none ∧
        (∀ slot2 rid2,
            recover_funds σ2 slot2 rid2 nonce user = .error .accountNotFound) ∧
        (∀ slot2 rid2 cranker,
            recover_funds_anyone σ2 slot2 rid2 nonce user cranker =
              .error .accountNotFound)) ∧
    (∀ σ slot rid nonce user cranker σ2,
        NoDupKeys σ.tickets →
        σ.tickets.length ≤ σ.round.committed_count →
        recover_funds_anyone σ slot rid nonce user cranker = .ok σ2 →
        σ2.vaultTok + σ.config.stake_amount = σ.vaultTok ∧
        lookupBal σ2.userTok user =
          lookupBal σ.userTok user + σ.config.stake_amount ∧
        σ2.log = σ.log ++ [TokenEvent.stakeReturn user σ.config.stake_amount] ∧
        σ2.round.committed_count + 1 = σ.round.committed_count ∧
        findTicket σ2.tickets user nonce = none ∧
        (∀ slot2 rid2,
            recover_funds σ2 slot2 rid2 nonce user = .error .accountNotFound) ∧
        (∀ slot2 rid2 cranker2,
            recover_funds_anyone σ2 slot2 rid2 nonce user cranker2 =
              .error .accountNotFound)) := by
  refine ⟨?_, ?_, ?_, ?_⟩
  · intro σ slot rid nonce user σ2 h
    unfold recover_funds at h
    split at h
    · exact absurd h (by simp)
    · rename_i t hf
      unfold recover_funds_body at h
      split at h
      · exact absurd h (by simp)
      split at h
      · exact absurd h (by simp)
      split at h
      · exact absurd h (by simp)
      split at h
      · exact absurd h (by simp)
      split at h
      · exact absurd h (by simp)
      split at h
      · exact absurd h (by simp)
      split at h
      · exact absurd h (by simp)
      split at h
      · exact absurd h (by simp)
      rename_i hp _
      exact ⟨t, hf, by simpa using hp⟩
  · intro σ slot rid nonce user cranker σ2 h
    unfold recover_funds_anyone at h
    split at h
    · exact absurd h (by simp)
    · rename_i t hf
      unfold recover_funds_anyone_body at h
      split at h
      · exact absurd h (by simp)
      split at h
      · exact absurd h (by simp)
      split at h
      · exact absurd h (by simp)
      split at h
      · exact absurd h (by simp)
      split at h
      · exact absurd h (by simp)
      rename_i hp _
      exact ⟨t, hf, by simpa using hp⟩
  · intro σ slot rid nonce user σ2 hnd hlen h
    unfold recover_funds at h
    split at h
    · exact absurd h (by simp)
    · rename_i t hf
      unfold recover_funds_body at h
      split at h
      · exact absurd h (by simp)
      split at h
      · exact absurd h (by simp)
      split at h
      · exact absurd h (by simp)
      split at h
      · exact absurd h (by simp)
      split at h
      · exact absurd h (by simp)
      split at h
      · exact absurd h (by simp)
      split at h
      · exact absurd h (by simp)
      split at h
      · exact absurd h (by simp)
      rename_i hv
      injection h with hσ
      subst hσ
      have hcc : 0 < σ.round.committed_count :=
        lt_of_lt_of_le (findTicket_some_length σ.tickets user nonce t hf) hlen
      have hnone : findTicket (removeTicket σ.tickets user nonce) user nonce =
          none := findTicket_removeTicket_self σ.tickets user nonce hnd t hf
      refine ⟨by simp at hv; dsimp only; omega,
        lookupBal_creditBal_self σ.userTok user _, rfl,
        by dsimp only; rw [if_pos hcc]; omega, hnone, ?_, ?_⟩
      · intro slot2 rid2
        simp only [recover_funds, hnone]
      · intro slot2 rid2 cranker
        simp only [recover_funds_anyone, hnone]
  · intro σ slot rid nonce user cranker σ2 hnd hlen h
    unfold recover_funds_anyone at h
    split at h
    · exact absurd h (by simp)
    · rename_i t hf
      unfold recover_funds_anyone_body at h
      split at h
      · exact absurd h (by simp)
      split at h
      · exact absurd h (by simp)
      split at h
      · exact absurd h (by simp)
      split at h
      · exact absurd h (by simp)
      split at h
      · exact absurd h (by simp)
      rename_i hv
      injection h with hσ
      subst hσ
      have hcc : 0 < σ.round.committed_count :=
        lt_of_lt_of_le (findTicket_some_length σ.tickets user nonce t hf) hlen
      have hnone : findTicket (removeTicket σ.tickets user nonce) user nonce =
          none := findTicket_removeTicket_self σ.tickets user nonce hnd t hf
      refine ⟨by simp at hv; dsimp only; omega,
        lookupBal_creditBal_self σ.userTok user _, rfl,
        by dsimp only; rw [if_pos hcc]; omega, hnone, ?_, ?_⟩
      · intro slot2 rid2
        simp only [recover_funds, hnone]
      · intro slot2 rid2 cranker2
        simp only [recover_funds_anyone, hnone]

theorem c2_witness :
    NoDupKeys exChainPS.tickets ∧
    exChainPS.tickets.length ≤ exChainPS.round.committed_count ∧
    recover_funds_anyone exChainPS 351 1 7 5 2 = .ok exChainPSRefunded ∧
    (exChainPSRefunded.vaultTok + exChainPS.config.stake_amount =
        exChainPS.vaultTok ∧
      lookupBal exChainPSRefunded.userTok 5 =
        lookupBal exChainPS.userTok 5 + exChainPS.config.stake_amount ∧
      exChainPSRefunded.log = exChainPS.log ++
        [TokenEvent.stakeReturn 5 exChainPS.config.stake_amount] ∧
      exChainPSRefunded.round.committed_count + 1 =
        exChainPS.round.committed_count ∧
      findTicket exChainPSRefunded.tickets 5 7 = none ∧
      (∀ slot2 rid2,
          recover_funds exChainPSRefunded slot2 rid2 7 5 =
            .error .accountNotFound) ∧
      (∀ slot2 rid2 cranker2,
          recover_funds_anyone exChainPSRefunded slot2 rid2 7 5 cranker2 =
            .error .accountNotFound)) :=
  ⟨by decide, by decide, by decide,
   c2_refund_at_most_once.2.2.2 exChainPS 351 1 7 5 2 exChainPSRefunded
     (by decide) (by decide) (by decide)⟩

/-! ## Checked-arithmetic helper lemmas -/

theorem checkedAdd_some (a b c : Nat) (h : checkedAdd a b = some c) :
    c = a + b := by
  unfold checkedAdd at h
  split at h
  · cases h; rfl
  · exact absurd h (by simp)

theorem checkedMul_some (a b c : Nat) (h : checkedMul a b = some c) :
    c = a * b := by
  unfold checkedMul at h
  split at h
  · cases h; rfl
  · exact absurd h (by simp)

theorem checkedSub_some (a b c : Nat) (h : checkedSub a b = some c) :
    c = a - b := by
  unfold checkedSub at h
  split at h
  · cases h; rfl
  · exact absurd h (by simp)

theorem checkedDiv_some (a b c : Nat) (h : checkedDiv a b = some c) :
    c = a / b := by
  unfold checkedDiv at h
  split at h
  · exact absurd h (by simp)
  · cases h; rfl

/-- Forward characterization of a successful `claim_reward` body run: all
gates passed and the post-state is the stake return, the fee-split mint
pair and the closed ticket. -/
theorem claim_reward_body_ok (σ : Chain) (slot nonce user : Nat) (t : Ticket)
    (σ2 : Chain) (hu : t.user = user)
    (h : claim_reward_body σ slot nonce user t = .ok σ2) :
    σ.round.token_settled = true ∧ σ.round.swept = false ∧
    t.round_id = σ.round.round_id ∧ t.stake_paid = true ∧ t.revealed = true ∧
    t.win = true ∧ t.claimed = false ∧
    σ.config.stake_amount ≤ σ.vaultTok ∧
    σ.tokenomics.reward_fee_bps ≤ 10000 ∧
    σ2 = { σ with
           tickets := removeTicket σ.tickets user nonce
           vaultTok := σ.vaultTok - σ.config.stake_amount
           userTok := creditBal σ.userTok user (σ.config.stake_amount +
             (σ.config.stake_amount -
               σ.config.stake_amount * σ.tokenomics.reward_fee_bps / 10000))
           feePoolTok := σ.feePoolTok +
             σ.config.stake_amount * σ.tokenomics.reward_fee_bps / 10000
           log := σ.log ++
             [TokenEvent.stakeReturn user σ.config.stake_amount] ++
             (if σ.config.stake_amount -
                 σ.config.stake_amount * σ.tokenomics.reward_fee_bps / 10000
                 > 0 then
                [TokenEvent.mintUser user (σ.config.stake_amount -
                  σ.config.stake_amount * σ.tokenomics.reward_fee_bps /
                    10000)]
              else []) ++
             (if σ.config.stake_amount * σ.tokenomics.reward_fee_bps / 10000
                 > 0 then
                [TokenEvent.mintFeePool
                  (σ.config.stake_amount * σ.tokenomics.reward_fee_bps /
                    10000)]
              else []) } := by
  unfold claim_reward_body at h
  by_cases hts : σ.round.token_settled = true
  · rw [if_neg (not_not_intro hts)] at h
    by_cases hsw : σ.round.swept = true
    · rw [if_pos hsw] at h
      exact absurd h (by simp)
    · rw [if_neg hsw] at h
      rw [if_neg (not_not_intro hu)] at h
      by_cases hrid : t.round_id = σ.round.round_id
      · rw [if_neg (not_not_intro hrid)] at h
        by_cases hsp : t.stake_paid = true
        · rw [if_neg (not_not_intro hsp)] at h
          by_cases hrev : t.revealed = true
          · rw [if_neg (not_not_intro hrev)] at h
            by_cases hwin : t.win = true
            · rw [if_neg (not_not_intro hwin)] at h
              by_cases hcl : t.claimed = true
              · rw [if_pos hcl] at h
                exact absurd h (by simp)
              · rw [if_neg hcl] at h
                by_cases hv : σ.vaultTok < σ.config.stake_amount
                · rw [if_pos hv] at h
                  exact absurd h (by simp)
                · rw [if_neg hv] at h
                  by_cases hbps : σ.tokenomics.reward_fee_bps ≤ 10000
                  · rw [if_neg (not_not_intro hbps)] at h
                    split at h
                    · exact absurd h (by simp)
                    rename_i m hm
                    split at h
                    · exact absurd h (by simp)
                    rename_i fee hfee
                    split at h
                    · exact absurd h (by simp)
                    rename_i ur hur
                    have hm2 := checkedMul_some _ _ _ hm
                    subst hm2
                    have hfee2 := checkedDiv_some _ _ _ hfee
                    subst hfee2
                    have hur2 := checkedSub_some _ _ _ hur
                    subst hur2
                    injection h with hσ
                    exact ⟨hts, by simpa using hsw, hrid, hsp, hrev, hwin,
                      by simpa using hcl, by omega, hbps, hσ.symm⟩
                  · rw [if_pos hbps] at h
                    exact absurd h (by simp)
            · rw [if_pos hwin] at h
              exact absurd h (by simp)
          · rw [if_pos hrev] at h
            exact absurd h (by simp)
        · rw [if_pos hsp] at h
          exact absurd h (by simp)
      · rw [if_pos hrid] at h
        exact absurd h (by simp)
  · rw [if_pos hts] at h
    exact absurd h (by simp)

/-- C5: `claim_reward` succeeds only when the round is `token_settled` and
not `swept`, the caller owns the ticket (a non-owner addresses a
non-existent ticket PDA and fails at account resolution), and the ticket
has `stake_paid`, `revealed`, `win` set and `claimed` unset; each violated
conjunct fails with its dedicated error; and a successful claim closes the
ticket account, so a second claim on the same ticket always fails. -/
theorem c5_claim_gating :
    (∀ σ slot rid nonce user σ2,
        claim_reward σ slot rid nonce user = .ok σ2 →
        ∃ t, findTicket σ.tickets user nonce = some t ∧
          σ.round.token_settled = true ∧ σ.round.swept = false ∧
          t.user = user ∧ t.stake_paid = true ∧ t.revealed = true ∧
          t.win = true ∧ t.claimed = false) ∧
    (∀ σ slot rid nonce caller,
        findTicket σ.tickets caller nonce = none →
        claim_reward σ slot rid nonce caller = .error .accountNotFound) ∧
    (∀ σ slot rid nonce user t,
        findTicket σ.tickets user nonce = some t →
        σ.round.token_settled = false →
        claim_reward σ slot rid nonce user = .error (.prog .RoundNotSettled)) ∧
    (∀ σ slot rid nonce user t,
        findTicket σ.tickets user nonce = some t →
        σ.round.token_settled = true → σ.round.swept = true →
        claim_reward σ slot rid nonce user = .error (.prog .ClaimAfterSweep)) ∧
    (∀ σ slot rid nonce user t,
        findTicket σ.tickets user nonce = some t →
        σ.round.token_settled = true → σ.round.swept = false →
        t.round_id = σ.round.round_id → t.stake_paid = false →
        claim_reward σ slot rid nonce user = .error (.prog .StakeNotPaid)) ∧
    (∀ σ slot rid nonce user t,
        findTicket σ.tickets user nonce = some t →
        σ.round.token_settled = true → σ.round.swept = false →
        t.round_id = σ.round.round_id → t.stake_paid = true →
        t.revealed = false →
        claim_reward σ slot rid nonce user =
          .error (.prog .TicketNotRevealed)) ∧
    (∀ σ slot rid nonce user t,
        findTicket σ.tickets user nonce = some t →
        σ.round.token_settled = true → σ.round.swept = false →
        t.round_id = σ.round.round_id → t.stake_paid = true →
        t.revealed = true → t.win = false →
        claim_reward σ slot rid nonce user = .error (.prog .NotWinner)) ∧
    (∀ σ slot rid nonce user t,
        findTicket σ.tickets user nonce = some t →
        σ.round.token_settled = true → σ.round.swept = false →
        t.round_id = σ.round.round_id → t.stake_paid = true →
        t.revealed = true → t.win = true → t.claimed = true →
        claim_reward σ slot rid nonce user = .error (.prog .AlreadyClaimed)) ∧
    (∀ σ slot rid nonce user σ2,
        NoDupKeys σ.tickets →
        claim_reward σ slot rid nonce user = .ok σ2 →
        ∀ slot2 rid2,
          claim_reward σ2 slot2 rid2 nonce user = .error .accountNotFound) := by
  refine ⟨?_, ?_, ?_, ?_, ?_, ?_, ?_, ?_, ?_⟩
  · intro σ slot rid nonce user σ2 h
    unfold claim_reward at h
    split at h
    · exact absurd h (by simp)
    rename_i t hf
    obtain ⟨hu, _⟩ := findTicket_key σ.tickets user nonce t hf
    obtain ⟨hts, hsw, _, hsp, hrev, hwin, hcl, _⟩ :=
      claim_reward_body_ok σ slot nonce user t σ2 hu h
    exact ⟨t, hf, hts, hsw, hu, hsp, hrev, hwin, hcl⟩
  · intro σ slot rid nonce caller hf
    simp only [claim_reward, hf]
  · intro σ slot rid nonce user t hf hts
    simp only [claim_reward, hf]
    unfold claim_reward_body
    rw [if_pos (by simp [hts])]
  · intro σ slot rid nonce user t hf hts hsw
    simp only [claim_reward, hf]
    unfold claim_reward_body
    rw [if_neg (by simp [hts]), if_pos hsw]
  · intro σ slot rid nonce user t hf hts hsw hrid hsp
    obtain ⟨hu, _⟩ := findTicket_key σ.tickets user nonce t hf
    simp only [claim_reward, hf]
    unfold claim_reward_body
    rw [if_neg (by simp [hts]), if_neg (by simp [hsw]),
      if_neg (by simp [hu]), if_neg (by simp [hrid]),
      if_pos (by simp [hsp])]
  · intro σ slot rid nonce user t hf hts hsw hrid hsp hrev
    obtain ⟨hu, _⟩ := findTicket_key σ.tickets user nonce t hf
    simp only [claim_reward, hf]
    unfold claim_reward_body
    rw [if_neg (by simp [hts]), if_neg (by simp [hsw]),
      if_neg (by simp [hu]), if_neg (by simp [hrid]),
      if_neg (by simp [hsp]), if_pos (by simp [hrev])]
  · intro σ slot rid nonce user t hf hts hsw hrid hsp hrev hwin
    obtain ⟨hu, _⟩ := findTicket_key σ.tickets user nonce t hf
    simp only [claim_reward, hf]
    unfold claim_reward_body
    rw [if_neg (by simp [hts]), if_neg (by simp [hsw]),
      if_neg (by simp [hu]), if_neg (by simp [hrid]),
      if_neg (by simp [hsp]), if_neg (by simp [hrev]),
      if_pos (by simp [hwin])]
  · intro σ slot rid nonce user t hf hts hsw hrid hsp hrev hwin hcl
    obtain ⟨hu, _⟩ := findTicket_key σ.tickets user nonce t hf
    simp only [claim_reward, hf]
    unfold claim_reward_body
    rw [if_neg (by simp [hts]), if_neg (by simp [hsw]),
      if_neg (by simp [hu]), if_neg (by simp [hrid]),
      if_neg (by simp [hsp]), if_neg (by simp [hrev]),
      if_neg (by simp [hwin]), if_pos hcl]
  · intro σ slot rid nonce user σ2 hnd h
    unfold claim_reward at h
    split at h
    · exact absurd h (by simp)
    rename_i t hf
    obtain ⟨hu, _⟩ := findTicket_key σ.tickets user nonce t hf
    obtain ⟨_, _, _, _, _, _, _, _, _, hσ⟩ :=
      claim_reward_body_ok σ slot nonce user t σ2 hu h
    subst hσ
    have hnone : findTicket (removeTicket σ.tickets user nonce) user nonce =
        none := findTicket_removeTicket_self σ.tickets user nonce hnd t hf
    intro slot2 rid2
    simp only [claim_reward, hnone]

/-- C6: a successful `claim_reward` transfers exactly `stake_amount` from
the round vault to the user, computes `fee = stake_amount *
reward_fee_bps / 10000` with integer division, mints exactly
`stake_amount - fee` to the user and exactly `fee` to the fee pool — each
of the two mint CPIs skipped when its amount is zero — writes
`claimed = true` with the current slot into the ticket (`claimWrite`), and
the ticket account is then closed. -/
theorem c6_claim_amounts :
    ∀ σ slot rid nonce user σ2,
      claim_reward σ slot rid nonce user = .ok σ2 →
      σ2.vaultTok + σ.config.stake_amount = σ.vaultTok ∧
      lookupBal σ2.userTok user = lookupBal σ.userTok user +
        σ.config.stake_amount +
        (σ.config.stake_amount -
          σ.config.stake_amount * σ.tokenomics.reward_fee_bps / 10000) ∧
      σ2.feePoolTok = σ.feePoolTok +
        σ.config.stake_amount * σ.tokenomics.reward_fee_bps / 10000 ∧
      σ2.log = σ.log ++
        [TokenEvent.stakeReturn user σ.config.stake_amount] ++
        (if σ.config.stake_amount -
            σ.config.stake_amount * σ.tokenomics.reward_fee_bps / 10000 > 0
         then [TokenEvent.mintUser user
            (σ.config.stake_amount -
              σ.config.stake_amount * σ.tokenomics.reward_fee_bps / 10000)]
         else []) ++
        (if σ.config.stake_amount * σ.tokenomics.reward_fee_bps / 10000 > 0
         then [TokenEvent.mintFeePool
            (σ.config.stake_amount * σ.tokenomics.reward_fee_bps / 10000)]
         else []) ∧
      ∃ t, findTicket σ.tickets user nonce = some t ∧
        (claimWrite t slot).claimed = true ∧
        (claimWrite t slot).claimed_slot = slot ∧
        σ2.tickets = removeTicket σ.tickets user nonce := by
  intro σ slot rid nonce user σ2 h
  unfold claim_reward at h
  split at h
  · exact absurd h (by simp)
  rename_i t hf
  obtain ⟨hu, _⟩ := findTicket_key σ.tickets user nonce t hf
  obtain ⟨_, _, _, _, _, _, _, hv, _, hσ⟩ :=
    claim_reward_body_ok σ slot nonce user t σ2 hu h
  subst hσ
  refine ⟨by dsimp only; omega, ?_, by dsimp only, by dsimp only,
    t, hf, rfl, rfl, by dsimp only⟩
  dsimp only
  rw [lookupBal_creditBal_self]
  omega

/-! ## Witness chain for claim: a fully token-settled round -/

/-- The winning, processed, revealed version of `wTicket`. -/
def wTicketWin : Ticket :=
  { wTicket with
    revealed := true
    guess := 1
    win := true
    processed := true
    revealed_slot := 180 }

/-- A token-settled round holding the winner's stake. -/
def exChainSettled : Chain :=
  { exChainPS with
    round := { exChainPS.round with
               finalized := true
               finalized_slot := 250
               state := 2
               settled_count := 1
               token_settled := true
               token_settled_slot := 250 }
    tickets := [wTicketWin] }

/-- The state after the winner claims at slot `260`
(stake `100`, fee bps `100`: fee `1`, minted reward `99`). -/
def exChainClaimed : Chain :=
  { exChainSettled with
    tickets := []
    vaultTok := 0
    userTok := [(5, 199)]
    feePoolTok := 1
    log := [TokenEvent.stakeReturn 5 100, TokenEvent.mintUser 5 99,
            TokenEvent.mintFeePool 1] }

theorem c5_witness :
    claim_reward exChainSettled 260 1 7 5 = .ok exChainClaimed ∧
    (∃ t, findTicket exChainSettled.tickets 5 7 = some t ∧
      exChainSettled.round.token_settled = true ∧
      exChainSettled.round.swept = false ∧ t.user = 5 ∧
      t.stake_paid = true ∧ t.revealed = true ∧ t.win = true ∧
      t.claimed = false) :=
  ⟨by decide,
   c5_claim_gating.1 exChainSettled 260 1 7 5 exChainClaimed (by decide)⟩

theorem c6_witness :
    claim_reward exChainSettled 260 1 7 5 = .ok exChainClaimed ∧
    (exChainClaimed.vaultTok + exChainSettled.config.stake_amount =
        exChainSettled.vaultTok ∧
      lookupBal exChainClaimed.userTok 5 =
        lookupBal exChainSettled.userTok 5 +
          exChainSettled.config.stake_amount +
          (exChainSettled.config.stake_amount -
            exChainSettled.config.stake_amount *
              exChainSettled.tokenomics.reward_fee_bps / 10000) ∧
      exChainClaimed.feePoolTok = exChainSettled.feePoolTok +
        exChainSettled.config.stake_amount *
          exChainSettled.tokenomics.reward_fee_bps / 10000 ∧
      exChainClaimed.log = exChainSettled.log ++
        [TokenEvent.stakeReturn 5 exChainSettled.config.stake_amount] ++
        (if exChainSettled.config.stake_amount -
            exChainSettled.config.stake_amount *
              exChainSettled.tokenomics.reward_fee_bps / 10000 > 0
         then [TokenEvent.mintUser 5
            (exChainSettled.config.stake_amount -
              exChainSettled.config.stake_amount *
                exChainSettled.tokenomics.reward_fee_bps / 10000)]
         else []) ++
        (if exChainSettled.config.stake_amount *
            exChainSettled.tokenomics.reward_fee_bps / 10000 > 0
         then [TokenEvent.mintFeePool
            (exChainSettled.config.stake_amount *
              exChainSettled.tokenomics.reward_fee_bps / 10000)]
         else []) ∧
      ∃ t, findTicket exChainSettled.tickets 5 7 = some t ∧
        (claimWrite t 260).claimed = true ∧
        (claimWrite t 260).claimed_slot = 260 ∧
        exChainClaimed.tickets = removeTicket exChainSettled.tickets 5 7) :=
  ⟨by decide, c6_claim_amounts exChainSettled 260 1 7 5 exChainClaimed
    (by decide)⟩

/-! ## C7: batch replay protection -/

theorem findTicket_cons_isSome (a : Ticket) (ts : List Ticket) (u n : Nat)
    (h : (findTicket ts u n).isSome = true) :
    (findTicket (a :: ts) u n).isSome = true := by
  rw [findTicket_cons]
  by_cases hk : keyMatch a u n = true
  · rw [if_pos hk]
    rfl
  · rw [if_neg hk]
    exact h

theorem commitBatchLoop_replay (round_id user slot : Nat)
    (entries : List CommitEntry) (ts : List Ticket)
    (h : ∃ e ∈ entries, (findTicket ts user e.nonce).isSome = true) :
    commitBatchLoop round_id user slot entries ts =
      .error (.prog .TicketAlreadyExists) := by
  induction entries generalizing ts with
  | nil => simp at h
  | cons e rest ih =>
      unfold commitBatchLoop
      by_cases hocc : (findTicket ts user e.nonce).isSome = true
      · rw [if_pos hocc]
      · rw [if_neg hocc]
        obtain ⟨w, hw, hws⟩ := h
        rcases List.mem_cons.mp hw with hhead | htail
        · subst hhead
          exact absurd hws hocc
        · exact ih _ ⟨w, htail,
            findTicket_cons_isSome _ ts user w.nonce hws⟩

theorem replayPrecheck_replay (ts : List Ticket) (user : Nat)
    (entries : List CommitSignedEntry)
    (h : ∃ e ∈ entries, (findTicket ts user e.nonce).isSome = true) :
    replayPrecheck ts user entries = .error (.prog .TicketAlreadyExists) := by
  induction entries with
  | nil => simp at h
  | cons e rest ih =>
      unfold replayPrecheck
      by_cases hocc : (findTicket ts user e.nonce).isSome = true
      · rw [if_pos hocc]
      · rw [if_neg hocc]
        obtain ⟨w, hw, hws⟩ := h
        rcases List.mem_cons.mp hw with hhead | htail
        · subst hhead
          exact absurd hws hocc
        · exact ih ⟨w, htail, hws⟩

/-- C7: a batch commit (direct or pre-authorized) one of whose entries
targets an already-occupied ticket address aborts whole with
`TicketAlreadyExists` (the `Except` semantics models the transaction's
atomicity: an error moves no funds).  In the pre-authorized variant the
replay precheck runs over all target addresses before the escrow debit:
the theorem needs no assumption at all about the escrow balance or the
stake total, so the batch aborts with the replay error even when the
debit itself would have been impossible. -/
theorem c7_batch_replay :
    (∀ σ slot rid user entries,
        σ.config.paused = false →
        entries.length ≤ MAX_BATCH →
        σ.round.finalized = false →
        σ.round.pulse_set = false →
        slot ≤ σ.round.commit_deadline_slot →
        σ.config.stake_amount * entries.length < U64LIMIT →
        ¬ lookupBal σ.userTok user < σ.config.stake_amount * entries.length →
        (∃ e ∈ entries, (findTicket σ.tickets user e.nonce).isSome = true) →
        commit_batch σ slot rid user entries =
          .error (.prog .TicketAlreadyExists)) ∧
    (∀ σ slot rid payer user entries attests,
        σ.config.paused = false →
        entries.length ≤ MAX_BATCH →
        σ.round.finalized = false →
        σ.round.pulse_set = false →
        slot ≤ σ.round.commit_deadline_slot →
        entries.all (fun e => e.user == user) = true →
        ¬ attests.length < entries.length →
        checkCommitAttests rid entries attests = .ok () →
        (∃ e ∈ entries, (findTicket σ.tickets user e.nonce).isSome = true) →
        commit_batch_signed σ slot rid payer user entries attests =
          .error (.prog .TicketAlreadyExists)) := by
  constructor
  · intro σ slot rid user entries hp hlen hfin hps hslot hmul hbal hex
    unfold commit_batch
    rw [if_neg (by simp [hp]), if_neg (not_not_intro hlen),
      if_neg (by simp [hfin]), if_neg (by simp [hps]),
      if_neg (not_not_intro hslot)]
    have htot : checkedMul σ.config.stake_amount entries.length =
        some (σ.config.stake_amount * entries.length) := by
      unfold checkedMul
      rw [if_pos hmul]
    rw [htot]
    simp only
    rw [if_neg hbal,
      commitBatchLoop_replay rid user slot entries σ.tickets hex]
  · intro σ slot rid payer user entries attests hp hlen hfin hps hslot hall
      halen hatt hex
    unfold commit_batch_signed
    rw [if_neg (by simp [hp]), if_neg (not_not_intro hlen),
      if_neg (by simp [hfin]), if_neg (by simp [hps]),
      if_neg (not_not_intro hslot), if_neg (by simp [hall]),
      if_neg halen, hatt,
      replayPrecheck_replay σ.tickets user entries hex]

/-- A fresh, open round (no pulse) already holding the ticket
`(user 5, nonce 7)`, user balances funded, escrow empty. -/
def exChainOpen : Chain :=
  { config := exCfg
    tokenomics := { reward_fee_bps := 100 }
    round := { initRound 1 0 100 200 10 with committed_count := 1 }
    tickets := [wTicket]
    vaultTok := 100
    userTok := [(5, 1000)]
    escrowTok := []
    feePoolTok := 0
    treasuryTok := 0
    vaultSol := 0
    treasurySol := 0
    log := [] }

/-- The replayed signed entry targeting the occupied `(5, 7)` address. -/
def exSignedEntry : CommitSignedEntry :=
  { user := 5, nonce := 7, commitment := List.replicate 32 0 }

theorem c7_witness :
    commit_batch exChainOpen 50 1 5 [CommitEntry.mk 7 (List.replicate 32 0)] =
      .error (.prog .TicketAlreadyExists) ∧
    lookupBal exChainOpen.escrowTok 5 = 0 ∧
    commit_batch_signed exChainOpen 50 1 8 5 [exSignedEntry]
      [(5, expected_commit_msg PROGRAM_ID 1 5 7 (List.replicate 32 0))] =
      .error (.prog .TicketAlreadyExists) :=
  ⟨c7_batch_replay.1 exChainOpen 50 1 5
      [CommitEntry.mk 7 (List.replicate 32 0)] (by decide) (by decide)
      (by decide) (by decide) (by decide) (by decide) (by decide)
      ⟨CommitEntry.mk 7 (List.replicate 32 0), by decide, by decide⟩,
   by decide,
   c7_batch_replay.2 exChainOpen 50 1 8 5 [exSignedEntry]
      [(5, expected_commit_msg PROGRAM_ID 1 5 7 (List.replicate 32 0))]
      (by decide) (by decide) (by decide) (by decide) (by decide) (by decide)
      (by decide) (by decide) ⟨exSignedEntry, by decide, by decide⟩⟩

/-! ## C3: settlement accounting -/

/-- Number of tickets already processed by settlement. -/
def processedCount (ts : List Ticket) : Nat :=
  ts.countP (fun t => t.processed)

/-- Number of tickets whose stake was slashed by settlement. -/
def slashedCount (ts : List Ticket) : Nat :=
  ts.countP (fun t => t.processed && t.stake_slashed)

/-- A ticket not yet processed by settlement never carries the
`stake_slashed` marker (true of every freshly committed ticket, and
preserved by every operation). -/
def SlashWF (ts : List Ticket) : Prop :=
  ∀ t ∈ ts, t.processed = false → t.stake_slashed = false

instance (ts : List Ticket) : Decidable (SlashWF ts) := by
  unfold SlashWF; infer_instance

theorem findTicket_mem (ts : List Ticket) (u n : Nat) (t : Ticket)
    (h : findTicket ts u n = some t) : t ∈ ts := by
  induction ts with
  | nil => simp [findTicket] at h
  | cons a rest ih =>
      rw [findTicket_cons] at h
      by_cases hk : keyMatch a u n = true
      · rw [if_pos hk] at h
        injection h with h2
        subst h2
        exact List.mem_cons_self a rest
      · rw [if_neg hk] at h
        exact List.mem_cons_of_mem a (ih h)

theorem mem_setTicket (ts : List Ticket) (u n : Nat) (t2 b : Ticket)
    (hb : b ∈ setTicket ts u n t2) : b = t2 ∨ b ∈ ts := by
  induction ts with
  | nil => simp [setTicket] at hb
  | cons a rest ih =>
      rw [setTicket_cons] at hb
      by_cases hk : keyMatch a u n = true
      · rw [if_pos hk] at hb
        rcases List.mem_cons.mp hb with hh | hh
        · exact Or.inl hh
        · exact Or.inr (List.mem_cons_of_mem a hh)
      · rw [if_neg hk] at hb
        rcases List.mem_cons.mp hb with hh | hh
        · exact Or.inr (hh ▸ List.mem_cons_self a rest)
        · rcases ih hh with h2 | h2
          · exact Or.inl h2
          · exact Or.inr (List.mem_cons_of_mem a h2)

theorem settleLoop_spec (rid : Nat) (keys : List (Nat × Nat)) :
    ∀ acc acc2, SlashWF acc.tickets →
    settleLoop rid keys acc = .ok acc2 →
    (acc2.settled + processedCount acc.tickets =
      acc.settled + processedCount acc2.tickets) ∧
    (acc2.losers + slashedCount acc.tickets =
      acc.losers + slashedCount acc2.tickets) ∧
    SlashWF acc2.tickets ∧
    processedCount acc.tickets ≤ processedCount acc2.tickets ∧
    acc2.tickets.length = acc.tickets.length ∧
    (∀ u n, findTicket acc.tickets u n = none →
      findTicket acc2.tickets u n = none) ∧
    (∀ u n t, findTicket acc.tickets u n = some t →
      (t.processed = true → findTicket acc2.tickets u n = some t) ∧
      (t.processed = false →
        findTicket acc2.tickets u n = some t ∨
        findTicket acc2.tickets u n = some (processTicket t))) := by
  induction keys with
  | nil =>
      intro acc acc2 hwf h
      unfold settleLoop at h
      injection h with h2
      subst h2
      refine ⟨rfl, rfl, hwf, le_refl _, rfl, fun u n hn => hn, ?_⟩
      intro u n t ht
      exact ⟨fun _ => ht, fun _ => Or.inl ht⟩
  | cons k rest ih =>
      intro acc acc2 hwf h
      obtain ⟨user, nonce⟩ := k
      unfold settleLoop at h
      split at h
      · exact absurd h (by simp)
      rename_i t hf
      obtain ⟨hu, hn⟩ := findTicket_key acc.tickets user nonce t hf
      split at h
      · exact absurd h (by simp)
      split at h
      · exact absurd h (by simp)
      split at h
      · exact ih acc acc2 hwf h
      rename_i hproc
      split at h
      · exact absurd h (by simp)
      rename_i l2 hl2
      split at h
      · exact absurd h (by simp)
      rename_i s2 hs2
      have hproc2 : t.processed = false := by simpa using hproc
      have hs2v : s2 = acc.settled + 1 := checkedAdd_some _ _ _ hs2
      have htmem : t ∈ acc.tickets := findTicket_mem acc.tickets user nonce t hf
      have hslash : t.stake_slashed = false := hwf t htmem hproc2
      have hpkey : (processTicket t).user = user ∧
          (processTicket t).nonce = nonce := ⟨hu, hn⟩
      have hwf2 : SlashWF (setTicket acc.tickets user nonce
          (processTicket t)) := by
        intro b hb hbp
        rcases mem_setTicket acc.tickets user nonce (processTicket t) b hb with
          hbt | hbm
        · subst hbt
          simp [processTicket] at hbp
        · exact hwf b hbm hbp
      have hcntP : processedCount (setTicket acc.tickets user nonce
          (processTicket t)) = processedCount acc.tickets + 1 := by
        have := countP_setTicket (fun t => t.processed) acc.tickets user
          nonce t (processTicket t) hf
        simpa [processedCount, hproc2, processTicket] using this
      obtain ⟨ha, hb2, hc, hd, he, hfn, hg⟩ :=
        ih { tickets := setTicket acc.tickets user nonce (processTicket t)
             settled := s2
             losers := l2 } acc2 hwf2 h
      dsimp only at ha hb2 hc hd he hfn hg
      have hsetl : findTicket (setTicket acc.tickets user nonce
          (processTicket t)) user nonce = some (processTicket t) :=
        findTicket_setTicket_self acc.tickets user nonce t (processTicket t)
          hpkey.1 hpkey.2 hf
      have hptrue : (processTicket t).processed = true := rfl
      have hnonePart : ∀ u2 n2, findTicket acc.tickets u2 n2 = none →
          findTicket acc2.tickets u2 n2 = none := by
        intro u2 n2 hnone
        have hne : ¬(u2 = user ∧ n2 = nonce) := by
          rintro ⟨h1, h2⟩
          subst h1; subst h2
          rw [hf] at hnone
          exact absurd hnone (by simp)
        refine hfn u2 n2 ?_
        rw [findTicket_setTicket_other acc.tickets user nonce u2 n2
          (processTicket t) hne hpkey.1 hpkey.2]
        exact hnone
      have hsomePart : ∀ u2 n2 tt, findTicket acc.tickets u2 n2 = some tt →
          (tt.processed = true → findTicket acc2.tickets u2 n2 = some tt) ∧
          (tt.processed = false →
            findTicket acc2.tickets u2 n2 = some tt ∨
            findTicket acc2.tickets u2 n2 = some (processTicket tt)) := by
        intro u2 n2 tt htt
        by_cases hkey : u2 = user ∧ n2 = nonce
        · obtain ⟨h1, h2⟩ := hkey
          rw [h1, h2] at htt ⊢
          rw [hf] at htt
          injection htt with htt2
          subst htt2
          refine ⟨fun hcon => absurd hcon (by simp [hproc2]), fun _ => ?_⟩
          exact Or.inr ((hg user nonce (processTicket t) hsetl).1 hptrue)
        · have heq2 : findTicket (setTicket acc.tickets user nonce
              (processTicket t)) u2 n2 = findTicket acc.tickets u2 n2 :=
            findTicket_setTicket_other acc.tickets user nonce u2 n2
              (processTicket t) hkey hpkey.1 hpkey.2
          exact hg u2 n2 tt (by rw [heq2]; exact htt)
      have hlen2 : acc2.tickets.length = acc.tickets.length := by
        rw [he, length_setTicket]
      have hmono : processedCount acc.tickets ≤ processedCount acc2.tickets :=
        by omega
      have hsettled : acc2.settled + processedCount acc.tickets =
          acc.settled + processedCount acc2.tickets := by omega
      by_cases hloser : (!t.revealed || !t.win) = true
      · rw [if_pos hloser] at hl2
        have hl2v : l2 = acc.losers + 1 := checkedAdd_some _ _ _ hl2
        have hcntQ : slashedCount (setTicket acc.tickets user nonce
            (processTicket t)) = slashedCount acc.tickets + 1 := by
          have := countP_setTicket (fun t => t.processed && t.stake_slashed)
            acc.tickets user nonce t (processTicket t) hf
          simpa [slashedCount, hproc2, processTicket, hloser] using this
        exact ⟨hsettled, by omega, hc, hmono, hlen2, hnonePart, hsomePart⟩
      · rw [if_neg hloser] at hl2
        injection hl2 with hl2v
        have hcntQ : slashedCount (setTicket acc.tickets user nonce
            (processTicket t)) = slashedCount acc.tickets := by
          have := countP_setTicket (fun t => t.processed && t.stake_slashed)
            acc.tickets user nonce t (processTicket t) hf
          simpa [slashedCount, hproc2, processTicket, hloser, hslash]
            using this
        exact ⟨hsettled, by omega, hc, hmono, hlen2, hnonePart, hsomePart⟩

/-- C3: one successful `settle_round_tokens` call classifies each supplied
ticket at most once.  Already-processed tickets are left unchanged and do
not contribute to any counter; `settled_count` grows by exactly the number
of newly processed tickets; the vault burns exactly `stake_amount` per
newly slashed (unrevealed-or-lost) ticket in a single burn CPI;
`committed_count` is untouched; the round becomes `token_settled` exactly
when `settled_count` equals `committed_count`; and once `token_settled`,
any further settlement call fails, so repeated or overlapping calls never
double-burn a stake or double-count a ticket. -/
theorem c3_settlement_exactly_once :
    ∀ σ slot rid keys σ2,
      SlashWF σ.tickets →
      settle_round_tokens σ slot rid keys = .ok σ2 →
      σ2.round.settled_count + processedCount σ.tickets =
        σ.round.settled_count + processedCount σ2.tickets ∧
      σ2.vaultTok + σ.config.stake_amount * slashedCount σ2.tickets =
        σ.vaultTok + σ.config.stake_amount * slashedCount σ.tickets ∧
      σ2.log = σ.log ++ (if σ.vaultTok - σ2.vaultTok > 0 then
        [TokenEvent.burn (σ.vaultTok - σ2.vaultTok)] else []) ∧
      σ2.round.committed_count = σ.round.committed_count ∧
      σ.round.token_settled = false ∧
      (σ2.round.token_settled = true ↔
        σ2.round.settled_count = σ2.round.committed_count) ∧
      SlashWF σ2.tickets ∧
      (∀ u n t, findTicket σ.tickets u n = some t →
        (t.processed = true → findTicket σ2.tickets u n = some t) ∧
        (t.processed = false →
          findTicket σ2.tickets u n = some t ∨
          findTicket σ2.tickets u n = some (processTicket t))) ∧
      (σ2.round.token_settled = true →
        ∀ slot2 keys2, σ2.round.reveal_deadline_slot < slot2 →
          settle_round_tokens σ2 slot2 rid keys2 =
            .error (.prog .RoundTokensAlreadySettled)) := by
  intro σ slot rid keys σ2 hwf h
  unfold settle_round_tokens at h
  split at h
  · exact absurd h (by simp)
  rename_i hp
  split at h
  · exact absurd h (by simp)
  rename_i hrid
  split at h
  · exact absurd h (by simp)
  rename_i hslot
  split at h
  · exact absurd h (by simp)
  rename_i round1 heq
  have hfacts : round1.settled_count = σ.round.settled_count ∧
      round1.committed_count = σ.round.committed_count ∧
      round1.token_settled = σ.round.token_settled ∧
      round1.reveal_deadline_slot = σ.round.reveal_deadline_slot ∧
      round1.round_id = σ.round.round_id ∧
      round1.finalized = true := by
    split at heq
    · rename_i hfin
      injection heq with h2
      subst h2
      exact ⟨rfl, rfl, rfl, rfl, rfl, hfin⟩
    · split at heq
      · injection heq with h2
        subst h2
        exact ⟨rfl, rfl, rfl, rfl, rfl, rfl⟩
      · exact absurd heq (by simp)
  split at h
  · exact absurd h (by simp)
  rename_i hts1
  split at h
  · exact absurd h (by simp)
  rename_i acc hloop
  split at h
  · exact absurd h (by simp)
  rename_i burnAmt hburn
  split at h
  · exact absurd h (by simp)
  rename_i hv
  injection h with hσ
  subst hσ
  obtain ⟨ha, hb, hc, hd, he, hfn, hg⟩ :=
    settleLoop_spec rid keys
      { tickets := σ.tickets, settled := round1.settled_count, losers := 0 }
      acc hwf hloop
  dsimp only at ha hb hc hd he hfn hg
  have hburn2 : burnAmt = σ.config.stake_amount * acc.losers :=
    checkedMul_some _ _ _ hburn
  have hq : slashedCount acc.tickets = acc.losers + slashedCount σ.tickets :=
    by omega
  have hmul : σ.config.stake_amount * slashedCount acc.tickets =
      σ.config.stake_amount * acc.losers +
        σ.config.stake_amount * slashedCount σ.tickets := by
    rw [hq, Nat.mul_add]
  have hvle : ¬ σ.vaultTok < burnAmt := hv
  have htsσ : σ.round.token_settled = false := by
    rw [← hfacts.2.2.1]
    simpa using hts1
  by_cases hcond : acc.settled = round1.committed_count
  · rw [if_pos hcond]
    refine ⟨by dsimp only; omega, by dsimp only; omega, ?_,
      by dsimp only; omega, htsσ,
      by dsimp only; exact ⟨fun _ => hcond, fun _ => rfl⟩,
      hc, hg, ?_⟩
    · dsimp only
      rw [show σ.vaultTok - (σ.vaultTok - burnAmt) = burnAmt from by omega]
    · intro _ slot2 keys2 hslot2
      dsimp only at hslot2 ⊢
      unfold settle_round_tokens
      rw [if_neg (by simpa using hp)]
      rw [if_neg (by dsimp only; omega)]
      rw [if_neg (by dsimp only at hslot2 ⊢; omega)]
      rw [if_pos (show ({ round1 with
            settled_count := acc.settled
            token_settled := true
            token_settled_slot := slot } : Round).finalized = true from
          hfacts.2.2.2.2.2)]
      rfl
  · rw [if_neg hcond]
    refine ⟨by dsimp only; omega, by dsimp only; omega, ?_,
      by dsimp only; omega, htsσ,
      ?_, hc, hg, ?_⟩
    · dsimp only
      rw [show σ.vaultTok - (σ.vaultTok - burnAmt) = burnAmt from by omega]
    · dsimp only
      constructor
      · intro hcon
        have : round1.token_settled = σ.round.token_settled := hfacts.2.2.1
        have hfalse : round1.token_settled = false := by
          simpa using hts1
        rw [hfalse] at hcon
        exact absurd hcon (by simp)
      · intro hcon
        exact absurd hcon hcond
    · intro hcon slot2 keys2 hslot2
      dsimp only at hcon
      have hfalse : round1.token_settled = false := by simpa using hts1
      rw [hfalse] at hcon
      exact absurd hcon (by simp)

/-- The chain produced by settling `exChainPS` at slot `250` with the one
(unrevealed, hence losing) ticket supplied: auto-finalized, the stake
burned, the ticket processed and slashed, the round token-settled. -/
def exChainSettledAuto : Chain :=
  { exChainPS with
    round := { exChainPS.round with
               finalized := true
               finalized_slot := 250
               state := 2
               settled_count := 1
               token_settled := true
               token_settled_slot := 250 }
    tickets := [{ wTicket with stake_slashed := true, processed := true }]
    vaultTok := 0
    log := [TokenEvent.burn 100] }

theorem c3_witness :
    settle_round_tokens exChainPS 250 1 [(5, 7)] = .ok exChainSettledAuto ∧
    exChainSettledAuto.round.token_settled = true ∧
    exChainSettledAuto.round.settled_count =
      exChainSettledAuto.round.committed_count ∧
    exChainSettledAuto.vaultTok + 100 = exChainPS.vaultTok ∧
    (∀ slot2 keys2, 200 < slot2 →
      settle_round_tokens exChainSettledAuto slot2 1 keys2 =
        .error (.prog .RoundTokensAlreadySettled)) := by
  have happ := c3_settlement_exactly_once exChainPS 250 1 [(5, 7)]
    exChainSettledAuto (by decide) (by decide)
  refine ⟨by decide, by decide, by decide, by decide, ?_⟩
  intro slot2 keys2 h2
  exact happ.2.2.2.2.2.2.2.2 (by decide) slot2 keys2 h2

theorem c9_amended_witness :
    100 + MIN_REVEAL_WINDOW_SLOTS < U64LIMIT ∧
    (create_round exCfg 9 10 1 0 100 200 = .ok (initRound 1 0 100 200 10) ↔
      exCfg.paused = false ∧ exCfg.admin = 9 ∧ 100 < 200 ∧
        100 + MIN_REVEAL_WINDOW_SLOTS ≤ 200) :=
  ⟨by decide,
   c9_checked_arithmetic.2.2.2.2.2 exCfg 9 10 1 0 100 200 (by decide)⟩

/-! ## C8: phase machine invariants -/

/-- The five per-step phase conclusions, packaged. -/
def PhaseStep (σ σ2 : Chain) : Prop :=
  PhaseInv σ2 ∧ phaseVal σ.round ≤ phaseVal σ2.round ∧
  (σ.round.pulse_set = true → σ2.round.pulse_set = true) ∧
  (σ.round.finalized = true → σ2.round.finalized = true) ∧
  (σ2.round.finalized = true →
    σ.round.finalized = true ∨ σ.round.pulse_set = true)

theorem phaseStep_of_eq (σ σ2 : Chain) (hinv : PhaseInv σ)
    (h1 : σ2.round.state = σ.round.state)
    (h2 : σ2.round.pulse_set = σ.round.pulse_set)
    (h3 : σ2.round.finalized = σ.round.finalized) : PhaseStep σ σ2 := by
  refine ⟨?_, ?_, ?_, ?_, ?_⟩
  · unfold PhaseInv at hinv ⊢
    rw [h1, h2, h3]
    exact hinv
  · unfold phaseVal
    omega
  · intro hp
    rw [h2]
    exact hp
  · intro hp
    rw [h3]
    exact hp
  · intro hp
    exact Or.inl (h3.symm.trans hp)

theorem commit_ticket_phase (σ : Chain) (slot rid nonce user : Nat)
    (c : List Nat) (σ2 : Chain) (h : commit_ticket σ slot rid nonce user c = .ok σ2) :
    σ2.round.state = σ.round.state ∧ σ2.round.pulse_set = σ.round.pulse_set ∧
      σ2.round.finalized = σ.round.finalized := by
  unfold commit_ticket at h
  split at h
  · exact absurd h (by simp)
  split at h
  · exact absurd h (by simp)
  split at h
  · exact absurd h (by simp)
  split at h
  · exact absurd h (by simp)
  split at h
  · exact absurd h (by simp)
  split at h
  · exact absurd h (by simp)
  split at h
  · exact absurd h (by simp)
  injection h with hσ
  subst hσ
  exact ⟨rfl, rfl, rfl⟩

theorem commit_batch_phase (σ : Chain) (slot rid user : Nat)
    (entries : List CommitEntry) (σ2 : Chain)
    (h : commit_batch σ slot rid user entries = .ok σ2) :
    σ2.round.state = σ.round.state ∧ σ2.round.pulse_set = σ.round.pulse_set ∧
      σ2.round.finalized = σ.round.finalized := by
  unfold commit_batch at h
  split at h
  · exact absurd h (by simp)
  split at h
  · exact absurd h (by simp)
  split at h
  · exact absurd h (by simp)
  split at h
  · exact absurd h (by simp)
  split at h
  · exact absurd h (by simp)
  split at h
  · exact absurd h (by simp)
  split at h
  · exact absurd h (by simp)
  split at h
  · exact absurd h (by simp)
  split at h
  · exact absurd h (by simp)
  injection h with hσ
  subst hσ
  exact ⟨rfl, rfl, rfl⟩

theorem commit_batch_signed_phase (σ : Chain) (slot rid payer user : Nat)
    (entries : List CommitSignedEntry) (attests : List (Nat × List Nat))
    (σ2 : Chain)
    (h : commit_batch_signed σ slot rid payer user entries attests = .ok σ2) :
    σ2.round.state = σ.round.state ∧ σ2.round.pulse_set = σ.round.pulse_set ∧
      σ2.round.finalized = σ.round.finalized := by
  unfold commit_batch_signed at h
  split at h
  · exact absurd h (by simp)
  split at h
  · exact absurd h (by simp)
  split at h
  · exact absurd h (by simp)
  split at h
  · exact absurd h (by simp)
  split at h
  · exact absurd h (by simp)
  split at h
  · exact absurd h (by simp)
  split at h
  · exact absurd h (by simp)
  split at h
  · exact absurd h (by simp)
  split at h
  · exact absurd h (by simp)
  split at h
  · exact absurd h (by simp)
  split at h
  · exact absurd h (by simp)
  split at h
  · exact absurd h (by simp)
  split at h
  · exact absurd h (by simp)
  injection h with hσ
  subst hσ
  exact ⟨rfl, rfl, rfl⟩

theorem reveal_ticket_phase (σ : Chain) (slot rid nonce user guess : Nat)
    (salt : List Nat) (σ2 : Chain)
    (h : reveal_ticket σ slot rid nonce user guess salt = .ok σ2) :
    σ2.round.state = σ.round.state ∧ σ2.round.pulse_set = σ.round.pulse_set ∧
      σ2.round.finalized = σ.round.finalized := by
  unfold reveal_ticket at h
  split at h
  · exact absurd h (by simp)
  rename_i t hf
  unfold reveal_ticket_body at h
  split at h
  · exact absurd h (by simp)
  split at h
  · exact absurd h (by simp)
  split at h
  · exact absurd h (by simp)
  split at h
  · exact absurd h (by simp)
  split at h
  · exact absurd h (by simp)
  split at h
  · exact absurd h (by simp)
  split at h
  · exact absurd h (by simp)
  split at h
  · exact absurd h (by simp)
  split at h
  · split at h
    · exact absurd h (by simp)
    injection h with hσ
    subst hσ
    exact ⟨rfl, rfl, rfl⟩
  · injection h with hσ
    subst hσ
    exact ⟨rfl, rfl, rfl⟩

theorem revealBatchLoop_phase (rid user slot : Nat)
    (entries : List RevealEntry) :
    ∀ acc acc2, revealBatchLoop rid user slot entries acc = .ok acc2 →
    acc2.round.state = acc.round.state ∧
    acc2.round.pulse_set = acc.round.pulse_set ∧
    acc2.round.finalized = acc.round.finalized := by
  induction entries with
  | nil =>
      intro acc acc2 h
      unfold revealBatchLoop at h
      injection h with h2
      subst h2
      exact ⟨rfl, rfl, rfl⟩
  | cons e rest ih =>
      intro acc acc2 h
      unfold revealBatchLoop at h
      split at h
      · exact absurd h (by simp)
      split at h
      · exact absurd h (by simp)
      rename_i t hf
      split at h
      · exact absurd h (by simp)
      split at h
      · exact absurd h (by simp)
      rename_i t2 hrc
      split at h
      · exact absurd h (by simp)
      rename_i rc hrcnt
      split at h
      · split at h
        · exact absurd h (by simp)
        rename_i wc hwc
        simpa using ih _ acc2 h
      · simpa using ih _ acc2 h

theorem reveal_batch_phase (σ : Chain) (slot rid user : Nat)
    (entries : List RevealEntry) (σ2 : Chain)
    (h : reveal_batch σ slot rid user entries = .ok σ2) :
    σ2.round.state = σ.round.state ∧ σ2.round.pulse_set = σ.round.pulse_set ∧
      σ2.round.finalized = σ.round.finalized := by
  unfold reveal_batch at h
  split at h
  · exact absurd h (by simp)
  split at h
  · exact absurd h (by simp)
  split at h
  · exact absurd h (by simp)
  split at h
  · exact absurd h (by simp)
  split at h
  · exact absurd h (by simp)
  split at h
  · exact absurd h (by simp)
  rename_i acc hloop
  injection h with hσ
  subst hσ
  simpa using revealBatchLoop_phase rid user slot entries _ acc hloop

theorem revealBatchSignedLoop_phase (rid slot : Nat)
    (entries : List RevealSignedEntry) :
    ∀ attests acc acc2,
    revealBatchSignedLoop rid slot entries attests acc = .ok acc2 →
    acc2.round.state = acc.round.state ∧
    acc2.round.pulse_set = acc.round.pulse_set ∧
    acc2.round.finalized = acc.round.finalized := by
  induction entries with
  | nil =>
      intro attests acc acc2 h
      unfold revealBatchSignedLoop at h
      injection h with h2
      subst h2
      exact ⟨rfl, rfl, rfl⟩
  | cons e rest ih =>
      intro attests acc acc2 h
      rcases attests with _ | ⟨a, arest⟩
      · simp [revealBatchSignedLoop] at h
      unfold revealBatchSignedLoop at h
      split at h
      · exact absurd h (by simp)
      split at h
      · exact absurd h (by simp)
      split at h
      · exact absurd h (by simp)
      split at h
      · exact absurd h (by simp)
      rename_i t hf
      split at h
      · exact absurd h (by simp)
      split at h
      · exact absurd h (by simp)
      split at h
      · exact absurd h (by simp)
      rename_i t2 hrc
      split at h
      · exact absurd h (by simp)
      rename_i rc hrcnt
      split at h
      · split at h
        · exact absurd h (by simp)
        rename_i wc hwc
        simpa using ih arest _ acc2 h
      · simpa using ih arest _ acc2 h

theorem reveal_batch_signed_phase (σ : Chain) (slot rid : Nat)
    (entries : List RevealSignedEntry) (attests : List (Nat × List Nat))
    (σ2 : Chain)
    (h : reveal_batch_signed σ slot rid entries attests = .ok σ2) :
    σ2.round.state = σ.round.state ∧ σ2.round.pulse_set = σ.round.pulse_set ∧
      σ2.round.finalized = σ.round.finalized := by
  unfold reveal_batch_signed at h
  split at h
  · exact absurd h (by simp)
  split at h
  · exact absurd h (by simp)
  split at h
  · exact absurd h (by simp)
  split at h
  · exact absurd h (by simp)
  split at h
  · exact absurd h (by simp)
  split at h
  · exact absurd h (by simp)
  split at h
  · exact absurd h (by simp)
  split at h
  · exact absurd h (by simp)
  split at h
  · exact absurd h (by simp)
  rename_i acc hloop
  injection h with hσ
  subst hσ
  simpa using revealBatchSignedLoop_phase rid slot entries attests _ acc hloop

theorem set_pulse_signed_ok (σ : Chain) (slot rid : Nat) (pulse : List Nat)
    (attest : Option (Nat × List Nat)) (σ2 : Chain)
    (h : set_pulse_signed σ slot rid pulse attest = .ok σ2) :
    σ.round.pulse_set = false ∧ σ.round.finalized = false ∧
    σ2.round.state = 1 ∧ σ2.round.pulse_set = true ∧
    σ2.round.finalized = σ.round.finalized := by
  unfold set_pulse_signed at h
  by_cases h1 : pulse.length = 64
  · rw [if_neg (not_not_intro h1)] at h
    by_cases h2 : σ.config.paused = true
    · rw [if_pos h2] at h
      exact absurd h (by simp)
    · rw [if_neg h2] at h
      by_cases h3 : σ.config.oracle_pubkey = 0
      · rw [if_pos h3] at h
        exact absurd h (by simp)
      · rw [if_neg h3] at h
        by_cases h4 : σ.round.round_id = rid
        · rw [if_neg (not_not_intro h4)] at h
          by_cases h5 : σ.round.commit_deadline_slot ≤ slot
          · rw [if_neg (not_not_intro h5)] at h
            by_cases h6 : σ.round.finalized = true
            · rw [if_pos h6] at h
              exact absurd h (by simp)
            · rw [if_neg h6] at h
              by_cases h7 : slot <
                  satSub σ.round.reveal_deadline_slot SET_PULSE_MIN_REVEAL_WINDOW
              · rw [if_neg (not_not_intro h7)] at h
                by_cases h8 : σ.round.pulse_set = true
                · rw [if_pos h8] at h
                  exact absurd h (by simp)
                · rw [if_neg h8] at h
                  cases attest with
                  | none => simp at h
                  | some a =>
                      obtain ⟨pk, msg⟩ := a
                      dsimp only at h
                      by_cases h9 : pk = σ.config.oracle_pubkey
                      · rw [if_neg (not_not_intro h9)] at h
                        by_cases h10 : msg = expected_pulse_msg PROGRAM_ID rid
                            σ.round.pulse_index_target pulse
                        · rw [if_neg (not_not_intro h10)] at h
                          injection h with hσ
                          subst hσ
                          exact ⟨by simpa using h8, by simpa using h6,
                            rfl, rfl, rfl⟩
                        · rw [if_pos h10] at h
                          exact absurd h (by simp)
                      · rw [if_pos h9] at h
                        exact absurd h (by simp)
              · rw [if_pos h7] at h
                exact absurd h (by simp)
          · rw [if_pos h5] at h
            exact absurd h (by simp)
        · rw [if_pos h4] at h
          exact absurd h (by simp)
  · rw [if_pos h1] at h
    exact absurd h (by simp)

theorem finalize_round_ok (σ : Chain) (slot rid admin : Nat) (σ2 : Chain)
    (h : finalize_round σ slot rid admin = .ok σ2) :
    σ.round.finalized = false ∧ σ.round.pulse_set = true ∧
    σ2.round.state = 2 ∧ σ2.round.finalized = true ∧
    σ2.round.pulse_set = σ.round.pulse_set := by
  unfold finalize_round at h
  split at h
  · exact absurd h (by simp)
  split at h
  · exact absurd h (by simp)
  split at h
  · exact absurd h (by simp)
  split at h
  · exact absurd h (by simp)
  rename_i hfin
  split at h
  · exact absurd h (by simp)
  rename_i hps
  split at h
  · exact absurd h (by simp)
  injection h with hσ
  subst hσ
  exact ⟨by simpa using hfin, by simpa using hps, rfl, rfl, rfl⟩

theorem settle_round_tokens_phase (σ : Chain) (slot rid : Nat)
    (keys : List (Nat × Nat)) (σ2 : Chain)
    (h : settle_round_tokens σ slot rid keys = .ok σ2) :
    (σ.round.finalized = true ∧ σ2.round.state = σ.round.state ∧
      σ2.round.pulse_set = σ.round.pulse_set ∧
      σ2.round.finalized = σ.round.finalized) ∨
    (σ.round.finalized = false ∧ σ.round.pulse_set = true ∧
      σ2.round.state = 2 ∧ σ2.round.finalized = true ∧
      σ2.round.pulse_set = σ.round.pulse_set) := by
  unfold settle_round_tokens at h
  split at h
  · exact absurd h (by simp)
  split at h
  · exact absurd h (by simp)
  split at h
  · exact absurd h (by simp)
  split at h
  · exact absurd h (by simp)
  rename_i round1 heq
  split at h
  · exact absurd h (by simp)
  split at h
  · exact absurd h (by simp)
  rename_i acc hloop
  split at h
  · exact absurd h (by simp)
  rename_i burnAmt hburn
  split at h
  · exact absurd h (by simp)
  injection h with hσ
  subst hσ
  split at heq
  · rename_i hfin
    injection heq with h2
    left
    by_cases hcond : acc.settled = round1.committed_count
    · rw [if_pos hcond, ← h2]
      exact ⟨hfin, rfl, rfl, rfl⟩
    · rw [if_neg hcond, ← h2]
      exact ⟨hfin, rfl, rfl, rfl⟩
  · split at heq
    · rename_i hfin hps
      injection heq with h2
      right
      by_cases hcond : acc.settled = round1.committed_count
      · rw [if_pos hcond, ← h2]
        exact ⟨by simpa using hfin, hps, rfl, rfl, rfl⟩
      · rw [if_neg hcond, ← h2]
        exact ⟨by simpa using hfin, hps, rfl, rfl, rfl⟩
    · exact absurd heq (by simp)

theorem sweep_unclaimed_phase (σ : Chain) (slot rid admin : Nat) (σ2 : Chain)
    (h : sweep_unclaimed σ slot rid admin = .ok σ2) :
    σ2.round.state = σ.round.state ∧ σ2.round.pulse_set = σ.round.pulse_set ∧
      σ2.round.finalized = σ.round.finalized := by
  unfold sweep_unclaimed at h
  split at h
  · exact absurd h (by simp)
  split at h
  · exact absurd h (by simp)
  split at h
  · exact absurd h (by simp)
  split at h
  · exact absurd h (by simp)
  split at h
  · exact absurd h (by simp)
  split at h
  · exact absurd h (by simp)
  injection h with hσ
  subst hσ
  exact ⟨rfl, rfl, rfl⟩

theorem claim_reward_phase (σ : Chain) (slot rid nonce user : Nat) (σ2 : Chain)
    (h : claim_reward σ slot rid nonce user = .ok σ2) :
    σ2.round.state = σ.round.state ∧ σ2.round.pulse_set = σ.round.pulse_set ∧
      σ2.round.finalized = σ.round.finalized := by
  unfold claim_reward at h
  split at h
  · exact absurd h (by simp)
  rename_i t hf
  obtain ⟨hu, _⟩ := findTicket_key σ.tickets user nonce t hf
  obtain ⟨_, _, _, _, _, _, _, _, _, hσ⟩ :=
    claim_reward_body_ok σ slot nonce user t σ2 hu h
  subst hσ
  exact ⟨rfl, rfl, rfl⟩

theorem recover_funds_phase (σ : Chain) (slot rid nonce user : Nat)
    (σ2 : Chain) (h : recover_funds σ slot rid nonce user = .ok σ2) :
    σ2.round.state = σ.round.state ∧ σ2.round.pulse_set = σ.round.pulse_set ∧
      σ2.round.finalized = σ.round.finalized := by
  unfold recover_funds at h
  split at h
  · exact absurd h (by simp)
  rename_i t hf
  unfold recover_funds_body at h
  split at h
  · exact absurd h (by simp)
  split at h
  · exact absurd h (by simp)
  split at h
  · exact absurd h (by simp)
  split at h
  · exact absurd h (by simp)
  split at h
  · exact absurd h (by simp)
  split at h
  · exact absurd h (by simp)
  split at h
  · exact absurd h (by simp)
  split at h
  · exact absurd h (by simp)
  injection h with hσ
  subst hσ
  exact ⟨rfl, rfl, rfl⟩

theorem recover_funds_anyone_phase (σ : Chain) (slot rid nonce user ck : Nat)
    (σ2 : Chain) (h : recover_funds_anyone σ slot rid nonce user ck = .ok σ2) :
    σ2.round.state = σ.round.state ∧ σ2.round.pulse_set = σ.round.pulse_set ∧
      σ2.round.finalized = σ.round.finalized := by
  unfold recover_funds_anyone at h
  split at h
  · exact absurd h (by simp)
  rename_i t hf
  unfold recover_funds_anyone_body at h
  split at h
  · exact absurd h (by simp)
  split at h
  · exact absurd h (by simp)
  split at h
  · exact absurd h (by simp)
  split at h
  · exact absurd h (by simp)
  split at h
  · exact absurd h (by simp)
  injection h with hσ
  subst hσ
  exact ⟨rfl, rfl, rfl⟩

theorem step_phase (σ : Chain) (slot : Nat) (op : Op) (σ2 : Chain)
    (h : step σ slot op = .ok σ2) (hinv : PhaseInv σ) : PhaseStep σ σ2 := by
  cases op with
  | commitTicketOp nonce user c =>
      obtain ⟨h1, h2, h3⟩ := commit_ticket_phase σ slot _ nonce user c σ2 h
      exact phaseStep_of_eq σ σ2 hinv h1 h2 h3
  | commitBatchOp user entries =>
      obtain ⟨h1, h2, h3⟩ := commit_batch_phase σ slot _ user entries σ2 h
      exact phaseStep_of_eq σ σ2 hinv h1 h2 h3
  | commitBatchSignedOp payer user entries attests =>
      obtain ⟨h1, h2, h3⟩ :=
        commit_batch_signed_phase σ slot _ payer user entries attests σ2 h
      exact phaseStep_of_eq σ σ2 hinv h1 h2 h3
  | revealTicketOp nonce user guess salt =>
      obtain ⟨h1, h2, h3⟩ :=
        reveal_ticket_phase σ slot _ nonce user guess salt σ2 h
      exact phaseStep_of_eq σ σ2 hinv h1 h2 h3
  | revealBatchOp user entries =>
      obtain ⟨h1, h2, h3⟩ := reveal_batch_phase σ slot _ user entries σ2 h
      exact phaseStep_of_eq σ σ2 hinv h1 h2 h3
  | revealBatchSignedOp entries attests =>
      obtain ⟨h1, h2, h3⟩ :=
        reveal_batch_signed_phase σ slot _ entries attests σ2 h
      exact phaseStep_of_eq σ σ2 hinv h1 h2 h3
  | setPulseSignedOp pulse attest =>
      obtain ⟨hps, hfin, h1, h2, h3⟩ :=
        set_pulse_signed_ok σ slot _ pulse attest σ2 h
      unfold PhaseInv at hinv
      rw [hfin, hps] at hinv
      simp at hinv
      refine ⟨?_, ?_, ?_, ?_, ?_⟩
      · unfold PhaseInv
        rw [h1, h2, h3, hfin]
        simp
      · unfold phaseVal
        rw [h1, hinv]
        omega
      · intro hp
        exact h2
      · intro hp
        rw [h3]
        exact hp
      · intro hp
        rw [h3, hfin] at hp
        exact absurd hp (by simp)
  | finalizeRoundOp admin =>
      obtain ⟨hfin, hps, h1, h2, h3⟩ := finalize_round_ok σ slot _ admin σ2 h
      unfold PhaseInv at hinv
      rw [hfin, hps] at hinv
      simp at hinv
      refine ⟨?_, ?_, ?_, ?_, ?_⟩
      · unfold PhaseInv
        rw [h1, h2]
        simp
      · unfold phaseVal
        rw [h1, hinv]
        omega
      · intro hp
        rw [h3]
        exact hp
      · intro hp
        rw [hfin] at hp
        exact absurd hp (by simp)
      · intro _
        exact Or.inr hps
  | settleRoundTokensOp keys =>
      rcases settle_round_tokens_phase σ slot _ keys σ2 h with
        ⟨hfin, h1, h2, h3⟩ | ⟨hfin, hps, h1, h2, h3⟩
      · exact phaseStep_of_eq σ σ2 hinv h1 h2 h3
      · unfold PhaseInv at hinv
        rw [hfin, hps] at hinv
        simp at hinv
        refine ⟨?_, ?_, ?_, ?_, ?_⟩
        · unfold PhaseInv
          rw [h1, h2]
          simp
        · unfold phaseVal
          rw [h1, hinv]
          omega
        · intro hp
          rw [h3]
          exact hp
        · intro hp
          rw [hfin] at hp
          exact absurd hp (by simp)
        · intro _
          exact Or.inr hps
  | sweepUnclaimedOp admin =>
      obtain ⟨h1, h2, h3⟩ := sweep_unclaimed_phase σ slot _ admin σ2 h
      exact phaseStep_of_eq σ σ2 hinv h1 h2 h3
  | claimRewardOp nonce user =>
      obtain ⟨h1, h2, h3⟩ :=
        claim_reward_phase σ slot σ.round.round_id nonce user σ2 h
      exact phaseStep_of_eq σ σ2 hinv h1 h2 h3
  | recoverFundsOp nonce user =>
      obtain ⟨h1, h2, h3⟩ := recover_funds_phase σ slot _ nonce user σ2 h
      exact phaseStep_of_eq σ σ2 hinv h1 h2 h3
  | recoverFundsAnyoneOp cranker nonce user =>
      obtain ⟨h1, h2, h3⟩ :=
        recover_funds_anyone_phase σ slot _ nonce user cranker σ2 h
      exact phaseStep_of_eq σ σ2 hinv h1 h2 h3

theorem steps_phase (σ σ2 : Chain) (hs : Steps σ σ2) :
    PhaseInv σ → PhaseInv σ2 ∧ phaseVal σ.round ≤ phaseVal σ2.round := by
  induction hs
  case refl =>
    intro hinv
    exact ⟨hinv, Nat.le_refl _⟩
  case tail =>
    rename_i τ τ2 slot op hs2 hstep ih
    intro hinv
    obtain ⟨hinv2, hle⟩ := ih hinv
    obtain ⟨hinv3, hle2, _⟩ := step_phase τ slot op τ2 hstep hinv2
    exact ⟨hinv3, Nat.le_trans hle hle2⟩

/-- C8: the round phase machine is monotone.  On any chain whose stored
`state` discriminant agrees with the lifecycle flags (`PhaseInv`), every
successful operation preserves that coherence and can only keep or raise
the phase `Announced (0) → PulseSet (1) → Finalized (2)`: `pulse_set` and
`finalized`, once true, stay true, and the phase value never decreases —
also along any multi-step reachable sequence, where it moreover never
leaves `{0, 1, 2}`.  `set_pulse_signed` can never succeed once `pulse_set`
is true (the pulse is written at most once), and when every earlier guard
passes the failure is precisely `PulseAlreadySet`.  Neither the explicit
`finalize_round` nor the auto-finalize inside `settle_round_tokens` can
mark a round finalized while `pulse_set` is false: both abort instead. -/
theorem c8_phase_monotonic :
    (∀ σ slot op σ2, step σ slot op = .ok σ2 → PhaseInv σ →
        PhaseInv σ2 ∧ phaseVal σ.round ≤ phaseVal σ2.round ∧
        (σ.round.pulse_set = true → σ2.round.pulse_set = true) ∧
        (σ.round.finalized = true → σ2.round.finalized = true)) ∧
    (∀ σ σ2, Steps σ σ2 → PhaseInv σ →
        PhaseInv σ2 ∧ phaseVal σ.round ≤ phaseVal σ2.round) ∧
    (∀ σ, PhaseInv σ → phaseVal σ.round ≤ 2) ∧
    (∀ σ slot rid pulse attest σ2, σ.round.pulse_set = true →
        set_pulse_signed σ slot rid pulse attest ≠ .ok σ2) ∧
    (∀ σ slot rid pulse attest,
        pulse.length = 64 → σ.config.paused = false →
        σ.config.oracle_pubkey ≠ 0 → σ.round.round_id = rid →
        σ.round.commit_deadline_slot ≤ slot → σ.round.finalized = false →
        slot < satSub σ.round.reveal_deadline_slot
          SET_PULSE_MIN_REVEAL_WINDOW →
        σ.round.pulse_set = true →
        set_pulse_signed σ slot rid pulse attest =
          .error (.prog .PulseAlreadySet)) ∧
    (∀ σ slot rid admin σ2, σ.round.pulse_set = false →
        finalize_round σ slot rid admin ≠ .ok σ2) ∧
    (∀ σ slot rid keys σ2, σ.round.pulse_set = false →
        σ.round.finalized = false →
        settle_round_tokens σ slot rid keys ≠ .ok σ2) := by
  refine ⟨?_, ?_, ?_, ?_, ?_, ?_, ?_⟩
  · intro σ slot op σ2 h hinv
    obtain ⟨a, b, c, d, _⟩ := step_phase σ slot op σ2 h hinv
    exact ⟨a, b, c, d⟩
  · intro σ σ2 hs hinv
    exact steps_phase σ σ2 hs hinv
  · intro σ hinv
    unfold PhaseInv at hinv
    unfold phaseVal
    rw [hinv]
    split
    · omega
    · split <;> omega
  · intro σ slot rid pulse attest σ2 hps hok
    obtain ⟨h0, _⟩ := set_pulse_signed_ok σ slot rid pulse attest σ2 hok
    rw [hps] at h0
    exact absurd h0 (by simp)
  · intro σ slot rid pulse attest hlen hpause horacle hrid hcd hfin hwin hps
    unfold set_pulse_signed
    rw [if_neg (not_not_intro hlen)]
    rw [if_neg (by simp [hpause])]
    rw [if_neg horacle]
    rw [if_neg (not_not_intro hrid)]
    rw [if_neg (not_not_intro hcd)]
    rw [if_neg (by simp [hfin])]
    rw [if_neg (not_not_intro hwin)]
    rw [if_pos hps]
  · intro σ slot rid admin σ2 hps hok
    obtain ⟨_, hps2, _⟩ := finalize_round_ok σ slot rid admin σ2 hok
    rw [hps] at hps2
    exact absurd hps2 (by simp)
  · intro σ slot rid keys σ2 hps hfin hok
    rcases settle_round_tokens_phase σ slot rid keys σ2 hok with
      ⟨hf, _⟩ | ⟨_, hp, _⟩
    · rw [hfin] at hf
      exact absurd hf (by simp)
    · rw [hps] at hp
      exact absurd hp (by simp)

/-- Concrete exercise of the C8 theorem: on the pulse-set example chain
(phase 1, flags coherent), finalizing at slot 351 succeeds, and the
theorem's per-step conclusions hold at that input; the same theorem also
yields the `PulseAlreadySet` failure of a second `set_pulse_signed` on
that chain at slot 120. -/
theorem c8_witness :
    (step exChainPS 351 (Op.finalizeRoundOp 9) =
      .ok { exChainPS with
            round := { exChainPS.round with
                       finalized := true
                       finalized_slot := 351
                       state := 2 } } ∧
     PhaseInv { exChainPS with
                round := { exChainPS.round with
                           finalized := true
                           finalized_slot := 351
                           state := 2 } } ∧
     phaseVal exChainPS.round ≤
       phaseVal { exChainPS.round with
                  finalized := true
                  finalized_slot := 351
                  state := 2 } ∧
     (exChainPS.round.pulse_set = true →
       Round.pulse_set { exChainPS.round with
                         finalized := true
                         finalized_slot := 351
                         state := 2 } = true) ∧
     (exChainPS.round.finalized = true →
       Round.finalized { exChainPS.round with
                         finalized := true
                         finalized_slot := 351
                         state := 2 } = true)) ∧
    set_pulse_signed exChainPS 120 1 (List.replicate 64 0) none =
      .error (.prog .PulseAlreadySet) :=
  ⟨⟨by decide,
    c8_phase_monotonic.1 exChainPS 351 (Op.finalizeRoundOp 9)
      { exChainPS with
        round := { exChainPS.round with
                   finalized := true
                   finalized_slot := 351
                   state := 2 } } (by decide) (by decide)⟩,
   c8_phase_monotonic.2.2.2.2.1 exChainPS 120 1 (List.replicate 64 0) none
     (by decide) (by decide) (by decide) (by decide) (by decide) (by decide)
     (by decide) (by decide)⟩

end Timlg
